import Mathlib

/-!
Verification of the Braket checkstyle documentation checker
(src/braket/flake8_plugins/braket_checkstyle_plugin.py).

The embedding models docstring lines as `List Char`.  The five regular
expressions of the plugin (`ARGS_REGEX`, `RETURN_REGEX`, `MISC_REGEX`,
`ARG_INFO_REGEX`, `RETURN_INFO_REGEX`, `INDENT_REGEX`) are translated to
deterministic matchers; each determinization is justified in a comment by
an analysis of the backtracking behaviour of the original pattern.

Python exceptions are modelled with `Except Unit`: the scanning code of the
plugin can in fact raise (`len(None)` in `_check_argument_docs`,
`None.strip()` in `_invalid_indent_found`), and the embedding reproduces
those control paths as `Except.error ()`.

Diagnostic messages are kept symbolic: a `Problem` records the position,
the message code (`BCS001` .. `BCS022`) and the arguments that the Python
code would interpolate into the message template, instead of the formatted
string.  This is faithful up to the (injective) formatting step.
-/

namespace BraketCheckstyle

/-- Python whitespace (`\s`) restricted to ASCII: space, tab, newline,
vertical tab, form feed, carriage return. -/
def isPySpace (c : Char) : Bool :=
  c = ' ' || c = '\t' || c = '\n' || c = Char.ofNat 11 || c = Char.ofNat 12 || c = '\r'

/-- Python word character (`\w`) restricted to ASCII: letters, digits, underscore. -/
def isWordChar (c : Char) : Bool :=
  c.isAlphanum || c = '_'

/-- The backtick character (used by `ARG_INFO_REGEX` and by `str.strip` below). -/
def btick : Char := Char.ofNat 96

/-- Python `str.strip()`: remove leading and trailing whitespace. -/
def pyStrip (l : List Char) : List Char :=
  ((l.dropWhile isPySpace).reverse.dropWhile isPySpace).reverse

/-- Python `str.strip("`")`: remove leading and trailing backticks. -/
def stripBackticks (l : List Char) : List Char :=
  ((l.dropWhile (· = btick)).reverse.dropWhile (· = btick)).reverse

/-- Python `str.split("\n")` (also used for `str.split(".")`). -/
def splitOnChar (sep : Char) : List Char → List (List Char)
  | [] => [[]]
  | c :: rest =>
      let r := splitOnChar sep rest
      if c = sep then [] :: r
      else
        match r with
        | [] => [[c]]
        | h :: t => (c :: h) :: t

/-- `_remove_all_spaces`: `re.sub(r"\s+", "", string)` removes every
whitespace character. -/
def removeAllSpaces (l : List Char) : List Char :=
  l.filter (fun c => !isPySpace c)

/-- `_are_type_strings_same`: equal strings are the same type; otherwise a
documented dotted path matches when its final segment equals the annotated
type.  (Both callers pass strings that already went through
`_remove_all_spaces`.) -/
def areTypeStringsSame (annotatedType documentedType : List Char) : Bool :=
  if annotatedType = documentedType then true
  else
    let paramSplit := splitOnChar '.' documentedType
    if paramSplit.length > 1 then annotatedType = paramSplit.getLastD []
    else false

/-! ### Header matchers

`ARGS_REGEX  = ^(\s*)Args\s*:\s*$`
`RETURN_REGEX = ^(\s*)(Returns|Yields)\s*:\s*$`
`MISC_REGEX  = ^(\s*)(Throws|Raises|See Also|Note|Example|Examples|Warnings)\s*:\s*$`

All three have the shape `^(\s*)KW\s*:\s*$` for a keyword (or alternation of
keywords) starting with a non-space character.  The leading greedy `(\s*)`
never needs to backtrack: shrinking it would place a whitespace character
where the keyword's non-space first character must match.  Alternation over
the keyword list is an existential over anchored matches, which the
list-`any` below reproduces (in particular "Examples:" matches via the
`Examples` alternative after `Example` fails to be followed by `:`). -/

/-- Match `^(\s*)KW\s*:\s*$` for one keyword, returning the captured indent. -/
def headerMatch (kw : List Char) (line : List Char) : Option (List Char) :=
  let ind := line.takeWhile isPySpace
  let r := line.dropWhile isPySpace
  if kw.isPrefixOf r then
    let r2 := (r.drop kw.length).dropWhile isPySpace
    match r2 with
    | ':' :: rest => if rest.all isPySpace then some ind else none
    | _ => none
  else none

def argsHeaderMatch (line : List Char) : Option (List Char) :=
  headerMatch "Args".data line

def returnHeaderMatch (line : List Char) : Option (List Char) :=
  match headerMatch "Returns".data line with
  | some ind => some ind
  | none => headerMatch "Yields".data line

def miscKeywords : List (List Char) :=
  ["Throws".data, "Raises".data, "See Also".data, "Note".data,
   "Example".data, "Examples".data, "Warnings".data]

def miscHeaderMatch (line : List Char) : Bool :=
  miscKeywords.any (fun kw => (headerMatch kw line).isSome)

/-! ### `INDENT_REGEX = ^(\s*)\S+.*`

Matches exactly when the line has a non-whitespace character; group 1 is the
leading whitespace. -/

def indentMatch (line : List Char) : Option (List Char) :=
  if (line.dropWhile isPySpace).isEmpty then none
  else some (line.takeWhile isPySpace)

/-! ### `RETURN_INFO_REGEX = ^(\s*)([^:]*)\s*(:)?\s*(.*)`

This pattern matches every line.  The greedy `(\s*)` takes all leading
whitespace (no later mandatory element can force backtracking, because
everything after it is optional).  The greedy `([^:]*)` then extends to the
first `:` or to the end of the line; the following `\s*` necessarily matches
the empty string, `(:)?` takes the colon when the scan stopped on one, the
next `\s*` is greedy, and `(.*)` takes the rest.  The `Bool` component
records whether group 3 (the colon) matched. -/

def returnInfoMatch (line : List Char) :
    List Char × List Char × Bool × List Char :=
  let ind := line.takeWhile isPySpace
  let r := line.dropWhile isPySpace
  let g2 := r.takeWhile (· ≠ ':')
  match r.dropWhile (· ≠ ':') with
  | ':' :: tail => (ind, g2, true, tail.dropWhile isPySpace)
  | _ => (ind, g2, false, [])

/-! ### `ARG_INFO_REGEX = ^(\s*)(`?\*{0,2}\w*`?)\s*(\([^:]*\))?\s*:\s*(.*)`

Deterministic equivalent.  Justification of the determinization:

* Group 2 is matched greedily (backtick if present, then up to two stars,
  then the maximal `\w*` run, then a backtick if present).  Backtracking
  into group 2 can never turn a failure into a success: shrinking any of its
  parts leaves the scan position on a backtick, a star or a word character,
  and none of `\s*`, `\(` or `:` (the possible next pattern elements) can
  consume such a character, so the remainder fails immediately at every
  backtracked position.

* The optional parenthesized group `(\([^:]*\))?`:  `[^:]*` cannot cross a
  colon, so the closing `\)` must sit on some `)` occurring strictly before
  the first `:` that follows the `(`.  The greedy engine tries those `)`
  positions from the last one backwards; only the last can succeed, because
  for any earlier candidate the span up to the colon still contains the
  later `)` (a non-space, non-colon character) on which `\s*:` fails.
  After the last `)` the pattern requires only whitespace and then the `:`.
  If the group cannot match (no suitable `)`), skipping the optional group
  leaves the scan on `(`, where the mandatory `:` fails, so the whole
  pattern fails.

* After group 2 (and the optional group), `\s*:` requires the next
  non-space character to be a colon; otherwise the pattern fails (again no
  useful backtracking, as argued above). -/

/-- Consume up to `n` leading stars (`\*{0,2}` with `n = 2`). -/
def takeStars : List Char → Nat → List Char × List Char
  | c :: rest, n + 1 =>
      if c = '*' then
        let (s, r) := takeStars rest n
        (c :: s, r)
      else ([], c :: rest)
  | l, _ => ([], l)

def argInfoMatch (line : List Char) :
    Option (List Char × List Char × Option (List Char) × List Char) :=
  let ind := line.takeWhile isPySpace
  let r0 := line.dropWhile isPySpace
  let (b1, r1) :=
    match r0 with
    | c :: rest => if c = btick then ([c], rest) else ([], r0)
    | [] => ([], r0)
  let (st, r2) := takeStars r1 2
  let w := r2.takeWhile isWordChar
  let r3 := r2.dropWhile isWordChar
  let (b2, r4) :=
    match r3 with
    | c :: rest => if c = btick then ([c], rest) else ([], r3)
    | [] => ([], r3)
  let g2 := b1 ++ st ++ w ++ b2
  let r5 := r4.dropWhile isPySpace
  match r5 with
  | '(' :: rest =>
      let before := rest.takeWhile (· ≠ ':')
      let afterC := rest.dropWhile (· ≠ ':')
      let rb := before.reverse
      let revAfter := rb.takeWhile (· ≠ ')')
      match rb.dropWhile (· ≠ ')') with
      | ')' :: revInner =>
          if revAfter.all isPySpace then
            match afterC with
            | ':' :: tail =>
                some (ind, g2, some ('(' :: revInner.reverse ++ [')']),
                      tail.dropWhile isPySpace)
            | _ => none
          else none
      | _ => none
  | ':' :: tail => some (ind, g2, none, tail.dropWhile isPySpace)
  | _ => none

/-! ### The function-definition model (the relevant fragment of `ast`) -/

/-- Type-annotation syntax nodes, one constructor per `isinstance` branch of
`_annotation_to_doc_str` plus the node kinds that fall through to the final
`return ""` (`ast.Index` wrappers reached outside a subscript, and every
other expression kind: constants, dicts, unary/binary operations, ...).
`nameConstant` models `ast.NameConstant` (`True`/`False`/`None`), which is
only inspected by `_return_type_requires_documentation`. -/
inductive Annot where
  | name (id : List Char)
  | attr (value : Annot) (attrName : List Char)
  | subscript (value : Annot) (slice : Annot)
  | index (value : Annot)
  | list (elts : List Annot)
  | tuple (elts : List Annot)
  | ellipsisLit
  | nameConstant (value : Option Bool)
  | other

/-- The `",".join(values)` of the `List`/`Tuple` branch of
`_annotation_to_doc_str`. -/
def joinComma : List (List Char) → List Char
  | [] => []
  | [v] => v
  | v :: rest => v ++ ',' :: joinComma rest

mutual

/-- `_annotation_to_doc_str`: render an annotation node as the string the
documentation is expected to use.  A subscript whose container is not a
simple name, an `Index` wrapper on its own, a `NameConstant` and every
unhandled node kind fall through to `""` exactly as in the source. -/
def annotationToDocStr : Annot → List Char
  | .name id => id
  | .attr _ a => a
  | .subscript (.name id) (.index sv) => id ++ '[' :: annotationToDocStr sv ++ [']']
  | .subscript (.name id) s => id ++ '[' :: annotationToDocStr s ++ [']']
  | .list elts => '[' :: joinComma (annotationListToDocStrs elts) ++ [']']
  | .tuple elts => joinComma (annotationListToDocStrs elts)
  | .ellipsisLit => "...".data
  | _ => []

/-- The element loop of the `List`/`Tuple` branch (recursing on a `Name`
element gives back exactly its `id`, so the loop is a plain map). -/
def annotationListToDocStrs : List Annot → List (List Char)
  | [] => []
  | a :: rest => annotationToDocStr a :: annotationListToDocStrs rest

end

/-- One entry of `node.args.args`: the parameter name, its optional
annotation and its source position (used by the `BCS001` diagnostic). -/
structure Arg where
  arg : List Char
  ann : Option Annot
  lineno : Nat := 0
  colOffset : Nat := 0

/-- `node.args`: the positional parameters plus presence of `*args` and
`**kwargs` (only their `None`-ness is ever inspected). -/
structure Arguments where
  args : List Arg
  vararg : Bool := false
  kwarg : Bool := false

/-- Body statements; only the statement kind and, for a string-literal
expression statement, the literal value, are relevant
(`_get_first_doc`, `_function_requires_documentation`). -/
inductive Stmt where
  | exprStr (s : List Char)
  | exprOther
  | ret
  | raiseStmt
  | other
deriving DecidableEq

structure FunctionDef where
  name : List Char
  args : Arguments
  body : List Stmt
  returns : Option Annot
  lineno : Nat := 1
  colOffset : Nat := 0

/-- `_get_first_doc`: the first body statement that is a string-literal
expression. -/
def getFirstDoc (node : FunctionDef) : Option (List Char) :=
  node.body.findSome? (fun s =>
    match s with
    | .exprStr v => some v
    | _ => none)

/-- `_get_argument_with_name`: index of the first declared parameter with
the given name. -/
def getArgumentWithName (argName : List Char) (node : FunctionDef) : Option Nat :=
  node.args.args.findIdx? (fun a => a.arg = argName)

/-- `_function_requires_documentation`. -/
def functionRequiresDocumentation (node : FunctionDef) : Bool :=
  if node.name.take 1 = ['_'] then false
  else if node.body.isEmpty then false
  else node.body.any (fun s =>
    match s with
    | .exprStr _ => false
    | .exprOther => false
    | .ret => false
    | .raiseStmt => false
    | .other => true)

/-- `_return_type_requires_documentation`. -/
def returnTypeRequiresDocumentation (node : FunctionDef) : Bool :=
  match node.returns with
  | none => false
  | some (.nameConstant v) => v.isSome
  | some _ => true

/-! ### Diagnostics -/

inductive Code where
  | BCS001 | BCS002 | BCS003 | BCS004 | BCS005 | BCS006 | BCS007 | BCS008
  | BCS009 | BCS010 | BCS011 | BCS012 | BCS013 | BCS014 | BCS015 | BCS016
  | BCS017 | BCS018 | BCS019 | BCS020 | BCS021 | BCS022
deriving DecidableEq

/-- One argument interpolated into a message template (`%s` receives a
string or `None`, `%d` a number). -/
inductive PArg where
  | str (v : List Char)
  | num (v : Nat)
  | noneV
deriving DecidableEq

/-- One element of `visitor.problems`: position, message code and the
message arguments (kept symbolic instead of formatted). -/
structure Problem where
  lineno : Nat
  colOffset : Nat
  code : Code
  args : List PArg
deriving DecidableEq

def mkProblem (node : FunctionDef) (code : Code) (args : List PArg) : Problem :=
  ⟨node.lineno, node.colOffset, code, args⟩

/-! ### The parsing context -/

inductive DocSection where
  | DESCRIPTION | ARGUMENTS | RETURN_FIRST_LINE | RETURN_REST | MISC
deriving DecidableEq

/-- `DocContext`: the per-function parsing state. -/
structure DocContext where
  found_args : Bool := false
  found_return : Bool := false
  found_description : Bool := false
  current_section : DocSection := .DESCRIPTION
  current_arg : Nat := 0
  found_arg_list : Option (List Nat) := none
  args_indent : Nat := 0
  return_indent : Nat := 0
  invalid_indents : Nat := 0
  first_invalid_indent_line : Option (List Char) := none
deriving DecidableEq

def RESERVED_ARGS : List (List Char) := ["self".data, "cls".data]

/-- `_invalid_indent_found`.  The function receives either a docstring line
or, from `_check_argument_indent`, the parsed argument name, which can be
`None`; calling `.strip()` on `None` raises, which the `Except.error`
models. -/
def invalidIndentFound (line : Option (List Char)) (ctx : DocContext) :
    Except Unit DocContext :=
  if ctx.invalid_indents = 0 then
    match line with
    | none => Except.error ()
    | some l =>
        let l := pyStrip l
        let l := if l.length > 18 then l.take 15 ++ "...".data else l
        Except.ok { ctx with
          first_invalid_indent_line := some l
          invalid_indents := ctx.invalid_indents + 1 }
  else Except.ok { ctx with invalid_indents := ctx.invalid_indents + 1 }

/-! ### The line scanner (`_check_doc_line` and parts) -/

/-- Truthiness of the parsed argument name (`None` and `""` are falsy). -/
def argNameTruthy : Option (List Char) → Bool
  | none => false
  | some [] => false
  | some (_ :: _) => true

def startsWithStar (l : List Char) : Bool :=
  l.take 1 = ['*']

/-- `_check_argument_indent`.  An entry at the recorded baseline indent is
checked against the declared parameters; any other indent except
baseline + 4 counts as an invalid indent (passing the parsed name — possibly
`None` — as the recorded line). -/
def checkArgumentIndent (argIndent : List Char) (argName : Option (List Char))
    (argIndex : Option Nat) (ctx : DocContext) (probs : List Problem)
    (node : FunctionDef) : Except Unit (DocContext × List Problem) :=
  if argIndent.length = ctx.args_indent then
    if argIndex.isNone && argNameTruthy argName && !startsWithStar (argName.getD []) then
      .ok (ctx, probs ++ [mkProblem node .BCS007 [.str (argName.getD [])]])
    else .ok (ctx, probs)
  else if argIndent.length ≠ ctx.args_indent + 4 then
    match invalidIndentFound argName ctx with
    | .error e => .error e
    | .ok ctx => .ok (ctx, probs)
  else .ok (ctx, probs)

/-- The tail of `_check_argument_docs` after the duplicate check and the
reserved-receiver adjustment: the out-of-order check, the documented-type
checks (where `node.args.args[arg_index]` would raise `IndexError` if the
index were invalid), and the missing-description check, whose condition
evaluates `len(arg_type)` and therefore raises `TypeError` when no
parenthesized type was captured. -/
def checkArgumentDocsTail (argName : List Char) (argType : Option (List Char))
    (argDesc : List Char) (argIndex : Nat) (ctx : DocContext)
    (probs : List Problem) (node : FunctionDef) :
    Except Unit (DocContext × List Problem) :=
  let probs :=
    if argIndex ≠ ctx.current_arg then probs ++ [mkProblem node .BCS015 [.str argName]]
    else probs
  let step4 : Except Unit (List Problem) :=
    match argType with
    | none => .ok (probs ++ [mkProblem node .BCS004 [.str argName]])
    | some ty =>
        match node.args.args.get? argIndex with
        | none => .error ()
        | some a =>
            match a.ann with
            | some ann =>
                let documentedType := removeAllSpaces ((ty.drop 1).dropLast)
                let annotationDoc := removeAllSpaces (annotationToDocStr ann)
                if !areTypeStringsSame annotationDoc documentedType then
                  .ok (probs ++ [mkProblem node .BCS005
                    [.str argName, .str annotationDoc, .str documentedType]])
                else .ok probs
            | none => .ok probs
  match step4 with
  | .error e => .error e
  | .ok probs =>
      if (pyStrip argDesc).length < 2 then
        match argType with
        | none => .error ()
        | some ty =>
            if argName.length + ty.length < 70 then
              .ok (ctx, probs ++ [mkProblem node .BCS008 [.str argName]])
            else .ok (ctx, probs)
      else .ok (ctx, probs)

/-- The part of `_check_argument_docs` after the duplicate check: the
reserved-receiver adjustment of the expected index (`node.args.args[0]`
would raise `IndexError` on an empty parameter list), then the remaining
checks. -/
def checkArgumentDocsRest (argName : List Char) (argType : Option (List Char))
    (argDesc : List Char) (argIndex : Nat) (ctx : DocContext)
    (probs : List Problem) (node : FunctionDef) :
    Except Unit (DocContext × List Problem) :=
  let step2 : Except Unit DocContext :=
    if ctx.current_arg = 0 ∧ argIndex ≠ ctx.current_arg then
      match node.args.args with
      | a :: _ => .ok (if a.arg ∈ RESERVED_ARGS then { ctx with current_arg := 1 } else ctx)
      | [] => .error ()
    else .ok ctx
  match step2 with
  | .error e => .error e
  | .ok ctx => checkArgumentDocsTail argName argType argDesc argIndex ctx probs node

/-- `_check_argument_docs`: duplicate detection against the documented set
(`BCS009` returns immediately, leaving the set unchanged), recording of the
index, then the remaining checks. -/
def checkArgumentDocs (argName : List Char) (argType : Option (List Char))
    (argDesc : List Char) (argIndex : Nat) (ctx : DocContext)
    (probs : List Problem) (node : FunctionDef) :
    Except Unit (DocContext × List Problem) :=
  match ctx.found_arg_list with
  | none =>
      checkArgumentDocsRest argName argType argDesc argIndex
        { ctx with found_arg_list := some [argIndex] } probs node
  | some l =>
      if argIndex ∈ l then
        Except.ok (ctx, probs ++ [mkProblem node .BCS009 [.str argName]])
      else
        checkArgumentDocsRest argName argType argDesc argIndex
          { ctx with found_arg_list := some (l ++ [argIndex]) } probs node

/-- `_check_argument_info`: decode the regex groups (an empty group 2 is
falsy, so the name becomes `None`; a present name is stripped of backticks),
resolve the name against the declared parameters, then run the indent check
and, for a resolved parameter, the documentation checks followed by the
unconditional `current_arg` resynchronization. -/
def checkArgumentInfo (m : List Char × List Char × Option (List Char) × List Char)
    (ctx : DocContext) (probs : List Problem) (node : FunctionDef) :
    Except Unit (DocContext × List Problem) :=
  let argIndent := m.1
  let g2 := m.2.1
  let argType := m.2.2.1
  let argDesc := m.2.2.2
  let argName : Option (List Char) :=
    if g2.isEmpty then none else some (stripBackticks g2)
  let argIndex : Option Nat :=
    match argName with
    | none => none
    | some n => getArgumentWithName n node
  match checkArgumentIndent argIndent argName argIndex ctx probs node with
  | .error e => .error e
  | .ok (ctx, probs) =>
      match argIndex with
      | none => .ok (ctx, probs)
      | some i =>
          match checkArgumentDocs (argName.getD []) argType argDesc i ctx probs node with
          | .error e => .error e
          | .ok (ctx, probs) => .ok ({ ctx with current_arg := i + 1 }, probs)

/-- `_check_indent` (the captured group of `INDENT_REGEX` is never `None`,
so only the length comparison remains). -/
def checkIndent (expectedIndent : Nat) (line : List Char) (ctx : DocContext) :
    Except Unit DocContext :=
  match indentMatch line with
  | some ind =>
      if ind.length ≠ expectedIndent then invalidIndentFound (some line) ctx
      else .ok ctx
  | none => .ok ctx

/-- `_check_return_info`.  Group 1 of `RETURN_INFO_REGEX` is never `None`;
when group 3 (the colon) is absent the type field is reinterpreted as the
description. -/
def checkReturnInfo (m : List Char × List Char × Bool × List Char)
    (ctx : DocContext) (probs : List Problem) (node : FunctionDef) :
    Except Unit (DocContext × List Problem) :=
  let returnIndent := m.1
  let docType0 := m.2.1
  let colon := m.2.2.1
  let retDesc0 := m.2.2.2
  match (if returnIndent.length ≠ ctx.return_indent then
          invalidIndentFound (some docType0) ctx
         else .ok ctx) with
  | .error e => .error e
  | .ok ctx =>
    let documentedType := if colon then some docType0 else none
    let returnDescription := if colon then retDesc0 else docType0
    let hasDocumentation := (pyStrip returnDescription).length > 1
    let probs :=
      if node.returns.isSome && !hasDocumentation then
        probs ++ [mkProblem node .BCS016 [.str node.name]]
      else probs
    match node.returns with
    | some ra =>
        let returnDoc := removeAllSpaces (annotationToDocStr ra)
        match documentedType with
        | none => .ok (ctx, probs ++ [mkProblem node .BCS006 [.str node.name, .str returnDoc]])
        | some dt =>
            let dt := removeAllSpaces dt
            if !areTypeStringsSame returnDoc dt then
              .ok (ctx, probs ++ [mkProblem node .BCS010
                [.str node.name, .str returnDoc, .str dt]])
            else .ok (ctx, probs)
    | none => .ok (ctx, probs)

/-- `_check_doc_args`: an `Args` header is a duplicate-definitions violation
if `Args` was already seen (and then falls through, returning `False`);
otherwise it is an order violation if `Returns` was already seen, and it
enters the `ARGUMENTS` section recording the entry baseline (the `4 if
match.groups()[0] is None` default is dead code: group 1 always matches). -/
def checkDocArgs (docLine : List Char) (ctx : DocContext) (probs : List Problem)
    (node : FunctionDef) : Bool × DocContext × List Problem :=
  match argsHeaderMatch docLine with
  | some ind =>
      if ctx.found_args then
        (false, ctx, probs ++ [mkProblem node .BCS012 [.str node.name]])
      else
        let probs :=
          if ctx.found_return then probs ++ [mkProblem node .BCS013 [.str node.name]]
          else probs
        (true, { ctx with
          found_args := true
          args_indent := ind.length + 4
          current_section := .ARGUMENTS }, probs)
  | none => (false, ctx, probs)

/-- `_check_doc_return`. -/
def checkDocReturn (docLine : List Char) (ctx : DocContext) (probs : List Problem)
    (node : FunctionDef) : Bool × DocContext × List Problem :=
  match returnHeaderMatch docLine with
  | some ind =>
      if ctx.found_return then
        (false, ctx, probs ++ [mkProblem node .BCS014 [.str node.name]])
      else
        (true, { ctx with
          found_return := true
          return_indent := ind.length + 4
          current_section := .RETURN_FIRST_LINE }, probs)
  | none => (false, ctx, probs)

/-- `_check_doc_misc`. -/
def checkDocMisc (docLine : List Char) (ctx : DocContext) : Bool × DocContext :=
  if miscHeaderMatch docLine then (true, { ctx with current_section := .MISC })
  else (false, ctx)

/-- `_check_doc_section`: process a non-header line according to the current
section. -/
def checkDocSection (docLine : List Char) (ctx : DocContext) (probs : List Problem)
    (node : FunctionDef) : Except Unit (DocContext × List Problem) :=
  match ctx.current_section with
  | .DESCRIPTION =>
      .ok (if (pyStrip docLine).length > 1 then { ctx with found_description := true } else ctx,
           probs)
  | .ARGUMENTS =>
      match argInfoMatch docLine with
      | some m => checkArgumentInfo m ctx probs node
      | none =>
          match checkIndent (ctx.args_indent + 4) docLine ctx with
          | .error e => .error e
          | .ok ctx => .ok (ctx, probs)
  | .RETURN_FIRST_LINE =>
      match checkReturnInfo (returnInfoMatch docLine) ctx probs node with
      | .error e => .error e
      | .ok (ctx, probs) => .ok ({ ctx with current_section := .RETURN_REST }, probs)
  | .RETURN_REST =>
      match checkIndent ctx.return_indent docLine ctx with
      | .error e => .error e
      | .ok ctx => .ok (ctx, probs)
  | .MISC => .ok (ctx, probs)

/-- `_check_doc_line`: headers first (in the order Args, Returns, Misc),
then the current section. -/
def checkDocLine (docLine : List Char) (ctx : DocContext) (probs : List Problem)
    (node : FunctionDef) : Except Unit (DocContext × List Problem) :=
  let (handled, ctx, probs) := checkDocArgs docLine ctx probs node
  if handled then .ok (ctx, probs)
  else
    let (handled, ctx, probs) := checkDocReturn docLine ctx probs node
    if handled then .ok (ctx, probs)
    else
      let (handled, ctx) := checkDocMisc docLine ctx
      if handled then .ok (ctx, probs)
      else checkDocSection docLine ctx probs node

/-- The docstring loop of `_check_documentation`. -/
def scanDocLines : List (List Char) → DocContext → List Problem → FunctionDef →
    Except Unit (DocContext × List Problem)
  | [], ctx, probs, _ => .ok (ctx, probs)
  | l :: rest, ctx, probs, node =>
      match checkDocLine l ctx probs node with
      | .error e => .error e
      | .ok (ctx, probs) => scanDocLines rest ctx probs node

/-! ### Post-scan verification (`_verify_context` and parts) -/

/-- `_function_has_arguments_to_document`. -/
def functionHasArgumentsToDocument (node : FunctionDef) : Bool :=
  node.args.args.any (fun a => decide (a.arg ∉ RESERVED_ARGS))

/-- `_verify_description`. -/
def verifyDescription (ctx : DocContext) (node : FunctionDef) (probs : List Problem) :
    List Problem :=
  if !ctx.found_description && functionRequiresDocumentation node then
    probs ++ [mkProblem node .BCS017 [.str node.name]]
  else probs

/-- `_verify_args`.  Note the Python truthiness test `if
context.found_arg_list:` — both `None` and an empty set skip the
missing-argument loop. -/
def verifyArgs (ctx : DocContext) (node : FunctionDef) (probs : List Problem) :
    List Problem :=
  if !ctx.found_args then
    if functionHasArgumentsToDocument node && functionRequiresDocumentation node then
      probs ++ [mkProblem node .BCS018 [.str node.name]]
    else probs
  else if !functionHasArgumentsToDocument node && !node.args.kwarg && !node.args.vararg then
    probs ++ [mkProblem node .BCS019 [.str node.name]]
  else
    match ctx.found_arg_list with
    | some l =>
        if l.isEmpty then probs
        else
          probs ++ node.args.args.enum.filterMap (fun p =>
            if p.1 ∉ l ∧ p.2.arg ∉ RESERVED_ARGS then
              some (mkProblem node .BCS011 [.str p.2.arg])
            else none)
    | none => probs

/-- `_verify_return`. -/
def verifyReturn (ctx : DocContext) (node : FunctionDef) (probs : List Problem) :
    List Problem :=
  if ctx.found_return then
    if node.returns.isNone then probs ++ [mkProblem node .BCS020 [.str node.name]]
    else probs
  else
    if functionRequiresDocumentation node && returnTypeRequiresDocumentation node then
      probs ++ [mkProblem node .BCS021 [.str node.name]]
    else probs

/-- `_verify_indents`. -/
def verifyIndents (ctx : DocContext) (node : FunctionDef) (probs : List Problem) :
    List Problem :=
  if ctx.invalid_indents > 0 then
    probs ++ [mkProblem node .BCS022 [.num ctx.invalid_indents,
      match ctx.first_invalid_indent_line with
      | some l => .str l
      | none => .noneV]]
  else probs

/-- `_verify_context`. -/
def verifyContext (ctx : DocContext) (node : FunctionDef) (probs : List Problem) :
    List Problem :=
  verifyIndents ctx node (verifyReturn ctx node (verifyArgs ctx node (verifyDescription ctx node probs)))

/-! ### Per-function entry points (`visit_FunctionDef` and parts) -/

/-- `_check_arguments` (`BCS001`, positioned at the argument node). -/
def checkArguments (name : List Char) (args : Arguments) (probs : List Problem) :
    List Problem :=
  if name.take 2 = "__".data ∨ name = "_".data then probs
  else
    args.args.foldl (fun probs a =>
      if a.ann.isNone ∧ a.arg ∉ RESERVED_ARGS then
        probs ++ [⟨a.lineno, a.colOffset, .BCS001, [.str a.arg]⟩]
      else probs) probs

/-- `_check_return` (`BCS002`). -/
def checkReturn (node : FunctionDef) (probs : List Problem) : List Problem :=
  if node.returns.isNone ∧ node.name.take 2 ≠ "__".data ∧ node.name ≠ "_".data then
    probs ++ [mkProblem node .BCS002 [.str node.name]]
  else probs

/-- `_check_documentation`. -/
def checkDocumentation (node : FunctionDef) (probs : List Problem) :
    Except Unit (List Problem) :=
  match getFirstDoc node with
  | none =>
      .ok (if functionRequiresDocumentation node then
             probs ++ [mkProblem node .BCS003 [.str node.name]]
           else probs)
  | some doc =>
      match scanDocLines (splitOnChar '\n' doc) {} probs node with
      | .error e => .error e
      | .ok (ctx, probs) => .ok (verifyContext ctx node probs)

/-- `visit_FunctionDef`: the complete per-function check; the resulting list
is what `BraketCheckstylePlugin.run` yields for this function. -/
def visitFunctionDef (node : FunctionDef) : Except Unit (List Problem) :=
  checkDocumentation node (checkReturn node (checkArguments node.name node.args []))

/-! ### Derived notions used by the claims -/

/-- The node shapes handled by `_annotation_to_doc_str` without falling
through to the trailing `return ""`: simple names, attribute accesses,
subscripts whose container is a simple name, lists, tuples and the literal
ellipsis. -/
def supportedShape : Annot → Bool
  | .name _ => true
  | .attr _ _ => true
  | .subscript (.name _) _ => true
  | .list _ => true
  | .tuple _ => true
  | .ellipsisLit => true
  | _ => false

/-- The type-equivalence judgement as applied by both call sites
(`_check_argument_docs` and `_check_return_info`): whitespace is removed
from both strings before `_are_type_strings_same` compares them. -/
def typeStringsJudgedEquivalent (rendered documented : List Char) : Bool :=
  areTypeStringsSame (removeAllSpaces rendered) (removeAllSpaces documented)

/-- A problem list entry is the `BCS011` (missing type-hint documentation)
diagnostic for the parameter named `nm`, positioned at `node`. -/
def isMissingDocFor (node : FunctionDef) (nm : List Char) (p : Problem) : Bool :=
  p = mkProblem node .BCS011 [.str nm]

/-- The documented-index set is well formed: not yet created, or a
duplicate-free list of indices. -/
def foundArgListNodup (ctx : DocContext) : Prop :=
  match ctx.found_arg_list with
  | none => True
  | some l => l.Nodup

/-! ### Canonical well-documented docstrings (for the universally
quantified completeness claim): one description line, an `Args:` header,
one fully-typed entry per declared parameter in declaration order, a
`Returns:` header with a typed described return line, and optional
whitespace-only trailing lines. -/

/-- The positional parameters built from names and annotations. -/
def mkParams (params : List (List Char × Annot)) : List Arg :=
  params.map (fun p => { arg := p.1, ann := some p.2 })

/-- A canonical `Args` entry: `    name (type): description` with the type
rendered from the declared annotation. -/
def mkArgEntry (p : (List Char × Annot) × List Char) : List Char :=
  "    ".data ++ p.1.1 ++ " (".data ++ annotationToDocStr p.1.2 ++ "): ".data ++ p.2

/-- A canonical `Returns` body line: `    type: description`. -/
def mkReturnLine (ra : Annot) (rd : List Char) : List Char :=
  "    ".data ++ annotationToDocStr ra ++ ": ".data ++ rd

/-- The canonical docstring lines for a fully documented function. -/
def canonicalDocLines (params : List (List Char × Annot)) (descs : List (List Char))
    (d0 : List Char) (ra : Annot) (rd : List Char) (trailing : List (List Char)) :
    List (List Char) :=
  [d0, "Args:".data] ++ (params.zip descs).map mkArgEntry ++
    ["Returns:".data, mkReturnLine ra rd] ++ trailing

/-! ### Concrete example functions -/

/-- The specification scenario: `def f(a: int) -> int:` with the canonical
docstring. -/
def scenarioNode : FunctionDef :=
  { name := "f".data
    args := { args := [{ arg := "a".data, ann := some (.name "int".data) }] }
    body := [.exprStr "Desc.\nArgs:\n    a (int): about a\nReturns:\n    int: the result\n".data,
             .other]
    returns := some (.name "int".data) }

/-- Same function, but the `Args` entry for `a` has neither a parenthesized
type nor a description (`    a : `). -/
def crashNode : FunctionDef :=
  { scenarioNode with
    body := [.exprStr "Desc.\nArgs:\n    a : \n".data, .other] }

/-- Same function with a docstring whose `Args:` header repeats after the
`Returns:` header. -/
def dupArgsNode : FunctionDef :=
  { scenarioNode with
    body := [.exprStr "Desc.\nArgs:\n    a (int): x y\nReturns:\n    int: ok\nArgs:".data,
             .other] }

/-- Same function with a docstring whose `Args` section documents nothing. -/
def emptyArgsNode : FunctionDef :=
  { scenarioNode with
    body := [.exprStr "Desc.\nArgs:".data, .other] }

/-- Same function with three badly indented docstring lines, the first of
which is the (mis-indented, six-space) `Args` entry for `a`. -/
def indentNode : FunctionDef :=
  { scenarioNode with
    body := [.exprStr "Desc.\nArgs:\n      a (int): about a\nReturns:\n    int: ok\nx\ny".data,
             .other] }

/-- `def f(a: int, b: int) -> int:` (used to exercise the verification of
partially documented argument lists). -/
def twoParamNode : FunctionDef :=
  { name := "f".data
    args := { args := [{ arg := "a".data, ann := some (.name "int".data) },
                       { arg := "b".data, ann := some (.name "int".data) }] }
    body := [.exprStr "Desc.".data, .other]
    returns := some (.name "int".data) }

/-- The aggregate invalid-indent diagnostic (`BCS022`). -/
def isIndentAggregate (p : Problem) : Bool :=
  p.code = Code.BCS022

/-- The scanner state after the description line, the `Args:` header and
the first `k` canonical argument entries of a fully documented function. -/
def entriesCtx (k : Nat) : DocContext :=
  { found_args := true
    found_description := true
    current_section := .ARGUMENTS
    current_arg := k
    found_arg_list := if k = 0 then none else some (List.range k)
    args_indent := 4 }

/-- The scanner state right after the canonical `Returns:` header. -/
def returnCtx (k : Nat) : DocContext :=
  { entriesCtx k with
    found_return := true
    return_indent := 4
    current_section := .RETURN_FIRST_LINE }

/-- The scanner state after the canonical return body line (and preserved by
trailing whitespace-only lines). -/
def finalCtx (k : Nat) : DocContext :=
  { returnCtx k with current_section := .RETURN_REST }

/-! ## Helper lemmas -/

theorem takeWhile_all_append {p : Char → Bool} {l1 l2 : List Char}
    (h : ∀ c ∈ l1, p c) : (l1 ++ l2).takeWhile p = l1 ++ l2.takeWhile p := by
  induction l1 with
  | nil => simp
  | cons c rest ih =>
      simp only [List.cons_append, List.takeWhile_cons_of_pos (h c (by simp))]
      rw [ih (fun x hx => h x (by simp [hx]))]

theorem dropWhile_all_append {p : Char → Bool} {l1 l2 : List Char}
    (h : ∀ c ∈ l1, p c) : (l1 ++ l2).dropWhile p = l2.dropWhile p := by
  induction l1 with
  | nil => simp
  | cons c rest ih =>
      simp only [List.cons_append, List.dropWhile_cons_of_pos (h c (by simp))]
      exact ih (fun x hx => h x (by simp [hx]))

theorem takeWhile_all_eq_self {p : Char → Bool} {l : List Char}
    (h : ∀ c ∈ l, p c) : l.takeWhile p = l := by
  induction l with
  | nil => simp
  | cons c rest ih =>
      simp only [List.takeWhile_cons_of_pos (h c (by simp))]
      rw [ih (fun x hx => h x (by simp [hx]))]

theorem dropWhile_all_eq_nil {p : Char → Bool} {l : List Char}
    (h : ∀ c ∈ l, p c) : l.dropWhile p = [] := by
  induction l with
  | nil => simp
  | cons c rest ih =>
      simp only [List.dropWhile_cons_of_pos (h c (by simp))]
      exact ih (fun x hx => h x (by simp [hx]))

theorem splitOnChar_ne_nil (sep : Char) (l : List Char) : splitOnChar sep l ≠ [] := by
  induction l with
  | nil => simp [splitOnChar]
  | cons c rest ih =>
      simp only [splitOnChar]
      split
      · simp
      · cases h : splitOnChar sep rest with
        | nil => simp
        | cons a t => simp

theorem splitOnChar_length_gt_one_iff (sep : Char) (l : List Char) :
    1 < (splitOnChar sep l).length ↔ sep ∈ l := by
  induction l with
  | nil => simp [splitOnChar]
  | cons c rest ih =>
      simp only [splitOnChar]
      by_cases hc : c = sep
      · subst hc
        have := splitOnChar_ne_nil c rest
        simp only [if_pos rfl, List.length_cons]
        constructor
        · intro _; simp
        · intro _
          cases h : splitOnChar c rest with
          | nil => exact absurd h this
          | cons a t => simp [h]
      · simp only [if_neg hc]
        cases h : splitOnChar sep rest with
        | nil => exact absurd h (splitOnChar_ne_nil sep rest)
        | cons a t =>
            have hlen : (splitOnChar sep rest).length = t.length + 1 := by simp [h]
            simp only [List.length_cons]
            rw [h] at ih
            simp only [List.length_cons] at ih
            simp only [List.mem_cons]
            constructor
            · intro hgt
              exact Or.inr (ih.mp hgt)
            · intro hor
              rcases hor with heq | hmem
              · exact absurd heq.symm hc
              · exact ih.mpr hmem

theorem isPySpace_cases {c : Char} (h : isPySpace c = true) :
    c = ' ' ∨ c = '\t' ∨ c = '\n' ∨ c = Char.ofNat 11 ∨ c = Char.ofNat 12 ∨ c = '\r' := by
  simp only [isPySpace, Bool.or_eq_true, decide_eq_true_eq] at h
  tauto

theorem pySpace_facts {c : Char} (h : isPySpace c = true) :
    isWordChar c = false ∧ c ≠ btick ∧ c ≠ '(' ∧ c ≠ ':' ∧ c ≠ ')' ∧ c ≠ '*' := by
  rcases isPySpace_cases h with rfl | rfl | rfl | rfl | rfl | rfl <;>
    exact ⟨by decide, by decide, by decide, by decide, by decide, by decide⟩

theorem wordChar_facts {c : Char} (h : isWordChar c = true) :
    isPySpace c = false ∧ c ≠ ':' ∧ c ≠ '(' ∧ c ≠ ')' ∧ c ≠ btick ∧ c ≠ '*' := by
  refine ⟨?_, ?_, ?_, ?_, ?_, ?_⟩
  · by_contra hs
    simp only [Bool.not_eq_false] at hs
    rcases isPySpace_cases hs with rfl | rfl | rfl | rfl | rfl | rfl <;> simp [isWordChar] at h
  all_goals rintro rfl
  all_goals simp [isWordChar, btick] at h

theorem takeWhile_cons_neg {p : Char → Bool} {c : Char} {l : List Char}
    (h : p c = false) : (c :: l).takeWhile p = [] :=
  List.takeWhile_cons_of_neg (by simp [h])

theorem dropWhile_cons_neg {p : Char → Bool} {c : Char} {l : List Char}
    (h : p c = false) : (c :: l).dropWhile p = c :: l :=
  List.dropWhile_cons_of_neg (by simp [h])

theorem takeWhile_eq_nil_of_head {p : Char → Bool} {l : List Char}
    (h : ∀ c, l.head? = some c → p c = false) : l.takeWhile p = [] := by
  cases l with
  | nil => rfl
  | cons c rest => exact takeWhile_cons_neg (h c rfl)

theorem dropWhile_eq_self_of_head {p : Char → Bool} {l : List Char}
    (h : ∀ c, l.head? = some c → p c = false) : l.dropWhile p = l := by
  cases l with
  | nil => rfl
  | cons c rest => exact dropWhile_cons_neg (h c rfl)

/-- Decompose a successful header match: the line is whitespace, the
keyword, whitespace, a colon, whitespace, and the captured indent is the
leading whitespace. -/
theorem headerMatch_some_decomp {kw line ind : List Char}
    (h : headerMatch kw line = some ind) :
    ind = line.takeWhile isPySpace ∧
    ∃ ws2 ws3, (∀ c ∈ ws2, isPySpace c) ∧ (∀ c ∈ ws3, isPySpace c) ∧
      line.dropWhile isPySpace = kw ++ ws2 ++ ':' :: ws3 := by
  simp only [headerMatch] at h
  split at h
  case isTrue hpre =>
    rcases (List.isPrefixOf_iff_prefix.mp hpre) with ⟨t, ht⟩
    rw [← ht, List.drop_left] at h
    split at h
    case h_1 rest heq =>
      split at h
      case isTrue hall =>
        refine ⟨by simpa using h.symm, t.takeWhile isPySpace, rest, ?_, ?_, ?_⟩
        · intro c hc
          exact List.mem_takeWhile_imp hc
        · intro c hc
          exact (List.all_eq_true.mp hall) c hc
        · rw [← ht, List.append_assoc]
          congr 1
          rw [← heq, List.takeWhile_append_dropWhile]
      case isFalse => exact absurd h (by simp)
    case h_2 => exact absurd h (by simp)
  case isFalse => exact absurd h (by simp)

/-- Compute a header match on a decomposed header line. -/
theorem headerMatch_decomp_some {k : Char} {kt ws ws2 ws3 : List Char}
    (hk : isPySpace k = false)
    (hws : ∀ c ∈ ws, isPySpace c) (hws2 : ∀ c ∈ ws2, isPySpace c)
    (hws3 : ∀ c ∈ ws3, isPySpace c) :
    headerMatch (k :: kt) (ws ++ (k :: kt) ++ ws2 ++ ':' :: ws3) = some ws := by
  have htw : (ws ++ (k :: kt) ++ ws2 ++ ':' :: ws3).takeWhile isPySpace = ws := by
    rw [List.append_assoc, List.append_assoc, takeWhile_all_append hws,
        List.cons_append, takeWhile_cons_neg hk, List.append_nil]
  have hdw : (ws ++ (k :: kt) ++ ws2 ++ ':' :: ws3).dropWhile isPySpace =
      (k :: kt) ++ (ws2 ++ ':' :: ws3) := by
    rw [List.append_assoc, List.append_assoc, dropWhile_all_append hws,
        List.cons_append, dropWhile_cons_neg hk]
  simp only [headerMatch, htw, hdw]
  rw [if_pos (List.isPrefixOf_iff_prefix.mpr ⟨ws2 ++ ':' :: ws3, rfl⟩)]
  rw [List.drop_left, dropWhile_all_append hws2, dropWhile_cons_neg (by decide)]
  have hall : ws3.all isPySpace = true := List.all_eq_true.mpr hws3
  simp [hall]

/-- A header match fails when the first non-space character of the line
differs from the first character of the keyword. -/
theorem headerMatch_none_of_head_ne {k : Char} {kt line : List Char} {a : Char}
    {r : List Char} (hd : line.dropWhile isPySpace = a :: r) (hne : k ≠ a) :
    headerMatch (k :: kt) line = none := by
  simp [headerMatch, hd, List.isPrefixOf, hne]

/-- `ARG_INFO_REGEX` on a line of the form `ws  word  ws  ':'  ws`: group 2
captures the word, no parenthesized type is captured, and the description is
empty. -/
theorem argInfoMatch_word_colon (ws3 : List Char) {w ws ws2 : List Char}
    (hword : ∀ c ∈ w, isWordChar c) (hw : w ≠ [])
    (hws : ∀ c ∈ ws, isPySpace c) (hws2 : ∀ c ∈ ws2, isPySpace c) :
    argInfoMatch (ws ++ w ++ ws2 ++ ':' :: ws3) =
      some (ws, w, none, ws3.dropWhile isPySpace) := by
  obtain ⟨c, wt, rfl⟩ : ∃ c wt, w = c :: wt := by
    cases w with
    | nil => exact absurd rfl hw
    | cons a b => exact ⟨a, b, rfl⟩
  have hcw : isWordChar c = true := hword c (by simp)
  have hcs : isPySpace c = false := (wordChar_facts hcw).1
  have hcb : ¬ (c = btick) := (wordChar_facts hcw).2.2.2.2.1
  have hcstar : ¬ (c = '*') := (wordChar_facts hcw).2.2.2.2.2
  have htw : (ws ++ (c :: wt) ++ ws2 ++ ':' :: ws3).takeWhile isPySpace = ws := by
    rw [List.append_assoc, List.append_assoc, takeWhile_all_append hws,
        List.cons_append, takeWhile_cons_neg hcs, List.append_nil]
  have hdw : (ws ++ (c :: wt) ++ ws2 ++ ':' :: ws3).dropWhile isPySpace =
      c :: (wt ++ (ws2 ++ ':' :: ws3)) := by
    rw [List.append_assoc, List.append_assoc, dropWhile_all_append hws,
        List.cons_append, dropWhile_cons_neg hcs]
  have hhead2 : ∀ d, (ws2 ++ ':' :: ws3 : List Char).head? = some d →
      isWordChar d = false := by
    intro d hd
    cases ws2 with
    | nil =>
        simp only [List.nil_append, List.head?_cons, Option.some.injEq] at hd
        subst hd
        decide
    | cons e es =>
        simp only [List.cons_append, List.head?_cons, Option.some.injEq] at hd
        subst hd
        exact (pySpace_facts (hws2 e (by simp))).1
  have htww : (c :: (wt ++ (ws2 ++ ':' :: ws3))).takeWhile isWordChar = c :: wt := by
    rw [← List.cons_append, takeWhile_all_append hword,
        takeWhile_eq_nil_of_head hhead2, List.append_nil]
  have hdww : (c :: (wt ++ (ws2 ++ ':' :: ws3))).dropWhile isWordChar =
      ws2 ++ ':' :: ws3 := by
    rw [← List.cons_append, dropWhile_all_append hword,
        dropWhile_eq_self_of_head hhead2]
  have hdws : (ws2 ++ ':' :: ws3 : List Char).dropWhile isPySpace = ':' :: ws3 := by
    rw [dropWhile_all_append hws2, dropWhile_cons_neg (by decide)]
  cases ws2 with
  | nil =>
      simp only [argInfoMatch, htw, hdw, if_neg hcb, takeStars, if_neg hcstar,
        htww, hdww, List.nil_append] at *
      simp only [show ¬ (':' = btick) from by decide, if_neg, if_false]
      simp [hdws]
  | cons e es =>
      have heb : ¬ (e = btick) := (pySpace_facts (hws2 e (by simp))).2.1
      simp only [argInfoMatch, htw, hdw, if_neg hcb, takeStars, if_neg hcstar,
        htww, hdww, List.cons_append] at *
      simp only [if_neg heb]
      simp [hdws]

/-! ## C5 -/

/-- C5: two type strings are judged equivalent by the checker exactly when
they are identical after removing all whitespace from both, or when the
whitespace-stripped documented string is a dotted path (contains at least
one dot) whose final segment equals the whitespace-stripped rendered
annotation; the dotted-path allowance applies only to the documented
side. -/
theorem claim_C5_type_equivalence (rendered documented : List Char) :
    typeStringsJudgedEquivalent rendered documented = true ↔
      (removeAllSpaces rendered = removeAllSpaces documented ∨
       ('.' ∈ removeAllSpaces documented ∧
        (splitOnChar '.' (removeAllSpaces documented)).getLastD [] =
          removeAllSpaces rendered)) := by
  simp only [typeStringsJudgedEquivalent, areTypeStringsSame]
  generalize removeAllSpaces rendered = x
  generalize removeAllSpaces documented = y
  by_cases hxy : x = y
  · simp [hxy]
  · rw [if_neg hxy]
    by_cases hdot : '.' ∈ y
    · have hlen := (splitOnChar_length_gt_one_iff '.' y).mpr hdot
      simp only [gt_iff_lt, if_pos hlen]
      rw [decide_eq_true_eq]
      constructor
      · intro h
        exact Or.inr ⟨hdot, h.symm⟩
      · rintro (h | ⟨_, h⟩)
        · exact absurd h hxy
        · exact h.symm
    · have hlen : ¬ (splitOnChar '.' y).length > 1 := fun hgt =>
        hdot ((splitOnChar_length_gt_one_iff '.' y).mp hgt)
      simp only [gt_iff_lt, not_lt] at hlen
      simp only [gt_iff_lt, if_neg (not_lt.mpr hlen)]
      simp [hxy, hdot]

/-! ## C8 -/

/-- C8: the annotation renderer is total; every node shape outside
{name, attribute access, simple subscript, list, tuple, ellipsis literal}
renders as the empty string, a simple name renders as itself, a qualified
attribute access renders as its trailing member name, and the literal
ellipsis renders as the three-character string `...`. -/
theorem claim_C8_renderer_contract :
    (∀ a : Annot, supportedShape a = false → annotationToDocStr a = []) ∧
    (∀ id : List Char, annotationToDocStr (.name id) = id) ∧
    (∀ (v : Annot) (m : List Char), annotationToDocStr (.attr v m) = m) ∧
    annotationToDocStr .ellipsisLit = "...".data := by
  refine ⟨?_, fun _ => rfl, fun _ _ => rfl, rfl⟩
  intro a h
  cases a with
  | name id => simp [supportedShape] at h
  | attr v m => simp [supportedShape] at h
  | subscript v s =>
      cases v with
      | name id => simp [supportedShape] at h
      | attr v2 m => cases s <;> rfl
      | subscript v2 s2 => cases s <;> rfl
      | index v2 => cases s <;> rfl
      | list e => cases s <;> rfl
      | tuple e => cases s <;> rfl
      | ellipsisLit => cases s <;> rfl
      | nameConstant b => cases s <;> rfl
      | other => cases s <;> rfl
  | index v => rfl
  | list e => simp [supportedShape] at h
  | tuple e => simp [supportedShape] at h
  | ellipsisLit => simp [supportedShape] at h
  | nameConstant b => rfl
  | other => rfl

/-- C8 witness: a subscript whose container is a tuple is not a supported
shape and renders as the empty string. -/
theorem claim_C8_renderer_contract_witness :
    supportedShape (Annot.subscript (Annot.tuple []) Annot.ellipsisLit) = false ∧
    annotationToDocStr (Annot.subscript (Annot.tuple []) Annot.ellipsisLit) = [] :=
  ⟨rfl, claim_C8_renderer_contract.1 (Annot.subscript (Annot.tuple []) Annot.ellipsisLit) rfl⟩

/-! ## C3 -/

/-- C3: the checker does not process every docstring without raising: on
`def f(a: int) -> int:` whose `Args` entry for `a` has neither a
parenthesized type nor a description (`    a : `), `_check_argument_docs`
evaluates `len(arg_type)` with `arg_type = None` and raises `TypeError`,
aborting the analysis instead of reporting diagnostics. -/
theorem claim_C3_checker_raises_on_bare_entry :
    visitFunctionDef crashNode = Except.error () := by rfl

/-! ## Concrete counterexample runs -/

/-- C2 counterexample: `def f(a: int) -> int:` requires documentation and
its docstring contains an `Args` section, yet the omitted parameter `a` is
not flagged: because no parameter at all was documented, the documented set
stays `None` and the missing-argument loop of `_verify_args` is skipped, so
the output contains no `BCS011` diagnostic (only the unrelated missing
return documentation). -/
theorem claim_C2_counterexample :
    visitFunctionDef emptyArgsNode =
      Except.ok [⟨1, 0, .BCS021, [.str "f".data]⟩] ∧
    functionRequiresDocumentation emptyArgsNode = true ∧
    (scanDocLines (splitOnChar '\n' "Desc.\nArgs:".data) {} [] emptyArgsNode).map
        (fun r => (r.1.found_args, r.1.found_arg_list)) =
      Except.ok (true, none) ∧
    ([⟨1, 0, .BCS021, [.str "f".data]⟩] : List Problem).all
        (fun p => !isMissingDocFor emptyArgsNode "a".data p) = true :=
  ⟨rfl, rfl, rfl, rfl⟩

/-- C6 counterexample: when a second `Args:` header arrives after a
`Returns:` header (both `found_args` and `found_return` hold), only the
duplicate-definitions diagnostic `BCS012` is emitted; the out-of-order
diagnostic `BCS013` demanded by the claim is absent, because
`_check_doc_args` returns immediately after flagging the duplicate (the
`BCS022` below stems from the same header line then being processed as a
mis-indented `RETURN_REST` line). -/
theorem claim_C6_counterexample :
    visitFunctionDef dupArgsNode =
      Except.ok [⟨1, 0, .BCS012, [.str "f".data]⟩,
                 ⟨1, 0, .BCS022, [.num 1, .str "Args:".data]⟩] ∧
    ([⟨1, 0, .BCS012, [.str "f".data]⟩,
      ⟨1, 0, .BCS022, [.num 1, .str "Args:".data]⟩] : List Problem).all
        (fun p => !(p.code = Code.BCS013 : Bool)) = true :=
  ⟨rfl, rfl⟩

/-- C7 counterexample: a `Note:` line switches the scan into `MISC`, but a
subsequent first `Args:` header moves it back out (into `ARGUMENTS`), so
`MISC` is not terminal. -/
theorem claim_C7_counterexample :
    (scanDocLines ["Note:".data] {} [] scenarioNode).map
        (fun r => r.1.current_section) = Except.ok DocSection.MISC ∧
    (scanDocLines ["Note:".data, "Args:".data] {} [] scenarioNode).map
        (fun r => r.1.current_section) = Except.ok DocSection.ARGUMENTS :=
  ⟨rfl, rfl⟩

/-- C9 counterexample: a docstring with exactly 3 malformed indentation
lines, whose first offender is the six-space `Args` entry
`      a (int): about a`; the aggregate diagnostic carries count 3 but the
text `a` (the parsed argument name recorded by `_check_argument_indent`),
not the exact text of the offending line. -/
theorem claim_C9_counterexample :
    visitFunctionDef indentNode =
      Except.ok [⟨1, 0, .BCS022, [.num 3, .str "a".data]⟩] ∧
    (splitOnChar '\n'
        "Desc.\nArgs:\n      a (int): about a\nReturns:\n    int: ok\nx\ny".data).get? 2 =
      some "      a (int): about a".data ∧
    PArg.str "      a (int): about a".data ≠ PArg.str "a".data :=
  ⟨rfl, rfl, by decide⟩

/-! ## C6 (amended) -/

/-- C6 (amended): for a line matching `^(\s*)Args\s*:\s*$` — when no Args
header was seen yet, the scanner transitions to `ARGUMENTS`, records the
entry baseline as the header indent plus 4, and flags the out-of-order
violation exactly when the Returns header was already seen; when an Args
header was already seen, only the duplicate violation is flagged: the line
does not transition the state, does not re-record the baseline, and no
out-of-order violation is added even when the Returns header was also
already seen. -/
theorem claim_C6_amended (line ind : List Char) (ctx : DocContext)
    (probs : List Problem) (node : FunctionDef)
    (h : argsHeaderMatch line = some ind) :
    (ctx.found_args = false →
      checkDocArgs line ctx probs node =
        (true,
         { ctx with
            found_args := true
            args_indent := ind.length + 4
            current_section := .ARGUMENTS },
         probs ++ if ctx.found_return then [mkProblem node .BCS013 [.str node.name]] else [])) ∧
    (ctx.found_args = true →
      checkDocArgs line ctx probs node =
        (false, ctx, probs ++ [mkProblem node .BCS012 [.str node.name]])) := by
  constructor
  · intro hf
    simp only [checkDocArgs, h, hf, Bool.false_eq_true, if_false]
    by_cases hr : ctx.found_return <;> simp [hr]
  · intro hf
    simp [checkDocArgs, h, hf]

/-- C6 witness: a duplicate `Args:` header with the Returns header already
seen produces only the duplicate diagnostic. -/
theorem claim_C6_amended_witness :
    checkDocArgs "Args:".data { found_args := true, found_return := true } [] scenarioNode =
      (false, { found_args := true, found_return := true },
       [mkProblem scenarioNode .BCS012 [.str "f".data]]) :=
  (claim_C6_amended "Args:".data [] { found_args := true, found_return := true }
    [] scenarioNode rfl).2 rfl

/-! ## C7 (amended) -/

/-- C7 (amended): once the scanner is in `MISC` and both the Args and the
Returns headers have already been seen, every remaining line leaves the
state in `MISC` (a first-time `Args:` or `Returns:`/`Yields:` header,
however, does move the scan out of `MISC`, as the counterexample shows). -/
theorem claim_C7_amended (line : List Char) (ctx : DocContext)
    (probs : List Problem) (node : FunctionDef)
    (hs : ctx.current_section = .MISC) (ha : ctx.found_args = true)
    (hr : ctx.found_return = true) :
    (checkDocLine line ctx probs node).map (fun r => r.1.current_section) =
      Except.ok DocSection.MISC := by
  rcases hA : argsHeaderMatch line with _ | indA <;>
  rcases hR : returnHeaderMatch line with _ | indR <;>
  by_cases hM : miscHeaderMatch line <;>
  simp [checkDocLine, checkDocArgs, checkDocReturn, checkDocMisc, checkDocSection,
        Except.map, hA, hR, hM, ha, hr, hs]

/-- C7 witness: a duplicate `Args:` header seen while in `MISC` leaves the
scan in `MISC`. -/
theorem claim_C7_amended_witness :
    (checkDocLine "Args:".data
        { current_section := .MISC, found_args := true, found_return := true }
        [] scenarioNode).map (fun r => r.1.current_section) =
      Except.ok DocSection.MISC :=
  claim_C7_amended "Args:".data
    { current_section := .MISC, found_args := true, found_return := true }
    [] scenarioNode rfl rfl rfl

/-! ## C10 -/

/-- C10: a second `Args:` header encountered while the scanner is in the
`ARGUMENTS` state is flagged as a duplicate and then reprocessed as an
ordinary argument entry; when its indentation equals the recorded entry
baseline and `Args` is not a declared parameter name, an
unknown-documented-argument diagnostic naming `Args` is also emitted. -/
theorem claim_C10_duplicate_args_header_reprocessed
    (ws ws2 ws3 : List Char) (ctx : DocContext) (probs : List Problem)
    (node : FunctionDef)
    (hws : ∀ c ∈ ws, isPySpace c) (hws2 : ∀ c ∈ ws2, isPySpace c)
    (hws3 : ∀ c ∈ ws3, isPySpace c)
    (hsec : ctx.current_section = .ARGUMENTS) (hfa : ctx.found_args = true)
    (hind : ws.length = ctx.args_indent)
    (hunk : getArgumentWithName "Args".data node = none) :
    checkDocLine (ws ++ "Args".data ++ ws2 ++ ':' :: ws3) ctx probs node =
      Except.ok (ctx, probs ++ [mkProblem node .BCS012 [.str node.name],
                                mkProblem node .BCS007 [.str "Args".data]]) := by
  have hA : argsHeaderMatch (ws ++ "Args".data ++ ws2 ++ ':' :: ws3) = some ws :=
    headerMatch_decomp_some (by decide) hws hws2 hws3
  have hdw : (ws ++ "Args".data ++ ws2 ++ ':' :: ws3).dropWhile isPySpace =
      'A' :: ("rgs".data ++ (ws2 ++ ':' :: ws3)) := by
    rw [List.append_assoc, List.append_assoc, dropWhile_all_append hws,
        show ("Args".data ++ (ws2 ++ ':' :: ws3) : List Char) =
          'A' :: ("rgs".data ++ (ws2 ++ ':' :: ws3)) from rfl,
        dropWhile_cons_neg (by decide)]
  have hR : returnHeaderMatch (ws ++ "Args".data ++ ws2 ++ ':' :: ws3) = none := by
    have h1 : headerMatch "Returns".data (ws ++ "Args".data ++ ws2 ++ ':' :: ws3) = none :=
      headerMatch_none_of_head_ne hdw (by decide)
    have h2 : headerMatch "Yields".data (ws ++ "Args".data ++ ws2 ++ ':' :: ws3) = none :=
      headerMatch_none_of_head_ne hdw (by decide)
    unfold returnHeaderMatch
    rw [h1]
    exact h2
  have hmisc : ∀ kw ∈ miscKeywords,
      headerMatch kw (ws ++ "Args".data ++ ws2 ++ ':' :: ws3) = none := by
    intro kw hkw
    fin_cases hkw
    · exact headerMatch_none_of_head_ne hdw (by decide)
    · exact headerMatch_none_of_head_ne hdw (by decide)
    · exact headerMatch_none_of_head_ne hdw (by decide)
    · exact headerMatch_none_of_head_ne hdw (by decide)
    · exact headerMatch_none_of_head_ne hdw (by decide)
    · exact headerMatch_none_of_head_ne hdw (by decide)
    · exact headerMatch_none_of_head_ne hdw (by decide)
  have hM : miscHeaderMatch (ws ++ "Args".data ++ ws2 ++ ':' :: ws3) = false := by
    apply List.any_eq_false.mpr
    intro kw hkw
    rw [hmisc kw hkw]
    simp
  have hword : ∀ c ∈ "Args".data, isWordChar c := by decide
  have hAI : argInfoMatch (ws ++ "Args".data ++ ws2 ++ ':' :: ws3) =
      some (ws, "Args".data, none, []) := by
    have h0 := argInfoMatch_word_colon ws3 hword (by decide) hws hws2
    rwa [dropWhile_all_eq_nil hws3] at h0
  simp only [checkDocLine, checkDocArgs, hA, hfa, if_true, Bool.false_eq_true,
    if_false, checkDocReturn, hR, checkDocMisc, hM, checkDocSection, hsec, hAI,
    checkArgumentInfo, checkArgumentIndent]
  simp [hind, hunk, argNameTruthy, startsWithStar, stripBackticks, btick,
    Bind.bind, Except.bind, pure, Except.pure]

/-- C10 witness: `    Args:` as a duplicate header inside an `ARGUMENTS`
section whose entry baseline is 4 yields the duplicate and the
unknown-argument diagnostics. -/
theorem claim_C10_duplicate_args_header_reprocessed_witness :
    checkDocLine ("    ".data ++ "Args".data ++ [] ++ ':' :: [])
        { found_args := true, current_section := .ARGUMENTS, args_indent := 4 }
        [] scenarioNode =
      Except.ok ({ found_args := true, current_section := .ARGUMENTS, args_indent := 4 },
        [mkProblem scenarioNode .BCS012 [.str "f".data],
         mkProblem scenarioNode .BCS007 [.str "Args".data]]) :=
  claim_C10_duplicate_args_header_reprocessed "    ".data [] []
    { found_args := true, current_section := .ARGUMENTS, args_indent := 4 }
    [] scenarioNode (by decide) (by decide) (by decide) rfl rfl rfl rfl

/-! ## C2 / C4 counting infrastructure -/

/-- The missing-argument loop of `_verify_args`, isolated: when the scan
found an `Args` section, recorded a nonempty documented set, and the
function has documentable arguments, the verification appends the
`BCS011` diagnostics produced by the enumeration loop. -/
theorem verifyArgs_append {ctx : DocContext} {node : FunctionDef}
    {probs : List Problem} {l : List Nat}
    (hfa : ctx.found_args = true)
    (hhas : functionHasArgumentsToDocument node = true)
    (hl : ctx.found_arg_list = some l) (hne : l ≠ []) :
    verifyArgs ctx node probs =
      probs ++ node.args.args.enum.filterMap (fun p =>
        if p.1 ∉ l ∧ p.2.arg ∉ RESERVED_ARGS then
          some (mkProblem node .BCS011 [.str p.2.arg])
        else none) := by
  have hie : l.isEmpty = false := by
    cases l with
    | nil => exact absurd rfl hne
    | cons a t => rfl
  simp [verifyArgs, hfa, hhas, hl, hie]

theorem isMissingDocFor_mkProblem (node : FunctionDef) (nm v : List Char) :
    isMissingDocFor node nm (mkProblem node .BCS011 [.str v]) = decide (v = nm) := by
  by_cases h : v = nm <;> simp [isMissingDocFor, mkProblem, h]

/-- Counting `BCS011` diagnostics for a fixed name inside the loop output
reduces to counting matching enumerated parameters. -/
theorem countP_missing_docs (node : FunctionDef) (l : List Nat) (nm : List Char) :
    ∀ (A : List Arg) (k : Nat),
      ((A.enumFrom k).filterMap (fun p =>
          if p.1 ∉ l ∧ p.2.arg ∉ RESERVED_ARGS then
            some (mkProblem node .BCS011 [.str p.2.arg])
          else none)).countP (isMissingDocFor node nm)
        = (A.enumFrom k).countP
            (fun p => decide (p.2.arg = nm ∧ p.1 ∉ l ∧ p.2.arg ∉ RESERVED_ARGS)) := by
  intro A
  induction A with
  | nil => intro k; rfl
  | cons a A ih =>
      intro k
      by_cases h1 : k ∉ l ∧ a.arg ∉ RESERVED_ARGS
      · simp only [List.enumFrom, List.filterMap_cons, if_pos h1, List.countP_cons,
          ih (k + 1), isMissingDocFor_mkProblem]
        obtain ⟨h1a, h1b⟩ := h1
        by_cases h2 : a.arg = nm
        · rw [h2] at h1b
          simp [h2, h1a, h1b]
        · simp [h2]
      · simp only [List.enumFrom, List.filterMap_cons, if_neg h1, List.countP_cons,
          ih (k + 1)]
        have : ¬ (a.arg = nm ∧ k ∉ l ∧ a.arg ∉ RESERVED_ARGS) := fun hc => h1 hc.2
        simp [this]

/-- Counting matching enumerated parameters for the name of the `i`-th
declared parameter, under duplicate-free parameter names. -/
theorem countP_enumFrom_name :
    ∀ (A : List Arg) (k i : Nat) (hi : i < A.length),
      (A.map (fun b => b.arg)).Nodup → ∀ (l : List Nat),
      (A.enumFrom k).countP
          (fun p => decide (p.2.arg = (A.get ⟨i, hi⟩).arg ∧ p.1 ∉ l ∧
            p.2.arg ∉ RESERVED_ARGS))
        = if (k + i) ∉ l ∧ (A.get ⟨i, hi⟩).arg ∉ RESERVED_ARGS then 1 else 0 := by
  intro A
  induction A with
  | nil => intro k i hi; simp at hi
  | cons a A ih =>
      intro k i hi hnd l
      have hnd1 : a.arg ∉ A.map (fun b => b.arg) := by
        simp only [List.map_cons, List.nodup_cons] at hnd
        exact hnd.1
      have hnd2 : (A.map (fun b => b.arg)).Nodup := by
        simp only [List.map_cons, List.nodup_cons] at hnd
        exact hnd.2
      cases i with
      | zero =>
          have hzero : ∀ p ∈ A.enumFrom (k + 1),
              ¬ (p.2.arg = a.arg ∧ p.1 ∉ l ∧ p.2.arg ∉ RESERVED_ARGS) := by
            intro p hp hc
            apply hnd1
            rw [← hc.1]
            have hmem : p.2 ∈ A := by
              have := List.enumFrom_map_snd (k + 1) A
              exact this ▸ List.mem_map_of_mem Prod.snd hp
            exact List.mem_map_of_mem (fun b => b.arg) hmem
          simp only [List.enumFrom, List.countP_cons, List.get]
          rw [List.countP_eq_zero.mpr (by
            intro p hp
            simp only [decide_eq_true_eq]
            exact hzero p hp)]
          by_cases hc : (k ∉ l ∧ a.arg ∉ RESERVED_ARGS) <;>
            simp [hc, Nat.add_zero]
      | succ j =>
          have hj : j < A.length := Nat.lt_of_succ_lt_succ hi
          have hne : ¬ (a.arg = (A.get ⟨j, hj⟩).arg ∧ k ∉ l ∧
              a.arg ∉ RESERVED_ARGS) := by
            rintro ⟨heq, -, -⟩
            apply hnd1
            rw [heq]
            exact List.mem_map_of_mem (fun b => b.arg) (A.get_mem j hj)
          simp only [List.enumFrom, List.countP_cons, List.get]
          rw [ih (k + 1) j hj hnd2 l]
          have harith : k + 1 + j = k + (j + 1) := by omega
          simp [hne, harith]
          intro hx hy
          by_contra hz
          exact hne ⟨hx, hy, hz⟩

/-! ## C2 (amended) -/

/-- C2 (amended): after a scan that found an `Args` section and recorded a
**nonempty** documented set, the verification appends exactly one `BCS011`
diagnostic for every declared parameter whose index is absent from the
documented set and whose name is not reserved, none for the others, and
nothing but `BCS011` diagnostics; when the documented set is empty (no
entry was recorded), the Python truthiness test skips the loop and no
`BCS011` diagnostic is emitted at all (see the counterexample). -/
theorem claim_C2_amended (ctx : DocContext) (node : FunctionDef)
    (probs : List Problem) (l : List Nat) (i : Nat)
    (hi : i < node.args.args.length)
    (hfa : ctx.found_args = true)
    (hl : ctx.found_arg_list = some l) (hne : l ≠ [])
    (hhas : functionHasArgumentsToDocument node = true)
    (hnd : (node.args.args.map (fun b => b.arg)).Nodup) :
    ((verifyArgs ctx node probs).drop probs.length).countP
        (isMissingDocFor node (node.args.args.get ⟨i, hi⟩).arg)
      = (if i ∉ l ∧ (node.args.args.get ⟨i, hi⟩).arg ∉ RESERVED_ARGS then 1 else 0) ∧
    ((verifyArgs ctx node probs).drop probs.length).all
        (fun p => decide (p.code = Code.BCS011)) = true := by
  rw [verifyArgs_append hfa hhas hl hne, List.drop_left]
  constructor
  · rw [show node.args.args.enum = node.args.args.enumFrom 0 from rfl]
    rw [countP_missing_docs]
    rw [countP_enumFrom_name node.args.args 0 i hi hnd l]
    simp
  · rw [List.all_eq_true]
    intro p hp
    rcases List.mem_filterMap.mp hp with ⟨q, hq, hfq⟩
    split at hfq
    · cases hfq
      simp [mkProblem]
    · cases hfq

/-- C2 witness: with parameters `a, b` and only `a` documented, the
verification appends exactly one `BCS011` (for `b`), and nothing else. -/
theorem claim_C2_amended_witness :
    ((verifyArgs { found_args := true, found_arg_list := some [0] } twoParamNode []).drop
        ([] : List Problem).length).countP
        (isMissingDocFor twoParamNode (twoParamNode.args.args.get ⟨1, by decide⟩).arg)
      = (if 1 ∉ ([0] : List Nat) ∧
          (twoParamNode.args.args.get ⟨1, by decide⟩).arg ∉ RESERVED_ARGS then 1 else 0) ∧
    ((verifyArgs { found_args := true, found_arg_list := some [0] } twoParamNode []).drop
        ([] : List Problem).length).all
        (fun p => decide (p.code = Code.BCS011)) = true :=
  claim_C2_amended { found_args := true, found_arg_list := some [0] } twoParamNode
    [] [0] 1 (by decide) rfl rfl (by decide) (by decide) (by decide)

/-! ## C4: preservation of the documented set -/

theorem foundArgListNodup_of_eq {c1 c2 : DocContext}
    (h : c2.found_arg_list = c1.found_arg_list) (hn : foundArgListNodup c1) :
    foundArgListNodup c2 := by
  unfold foundArgListNodup at *
  rw [h]
  exact hn

theorem invalidIndentFound_fal {line : Option (List Char)} {ctx ctx2 : DocContext}
    (h : invalidIndentFound line ctx = .ok ctx2) :
    ctx2.found_arg_list = ctx.found_arg_list := by
  unfold invalidIndentFound at h
  split at h
  · split at h
    · simp at h
    · simp only [Except.ok.injEq] at h
      subst h
      rfl
  · simp only [Except.ok.injEq] at h
    subst h
    rfl

theorem checkIndent_fal {e : Nat} {line : List Char} {ctx ctx2 : DocContext}
    (h : checkIndent e line ctx = .ok ctx2) :
    ctx2.found_arg_list = ctx.found_arg_list := by
  unfold checkIndent at h
  split at h
  · split at h
    · exact invalidIndentFound_fal h
    · simp only [Except.ok.injEq] at h
      subst h
      rfl
  · simp only [Except.ok.injEq] at h
    subst h
    rfl

theorem checkArgumentIndent_fal {argIndent : List Char} {argName : Option (List Char)}
    {argIndex : Option Nat} {ctx : DocContext} {probs : List Problem}
    {node : FunctionDef} {ctx2 : DocContext} {probs2 : List Problem}
    (h : checkArgumentIndent argIndent argName argIndex ctx probs node = .ok (ctx2, probs2)) :
    ctx2.found_arg_list = ctx.found_arg_list := by
  unfold checkArgumentIndent at h
  split at h
  · split at h <;>
      (simp only [Except.ok.injEq, Prod.mk.injEq] at h
       rw [← h.1])
  · split at h
    · split at h
      case h_1 => simp at h
      case h_2 c heq =>
          simp only [Except.ok.injEq, Prod.mk.injEq] at h
          rw [← h.1]
          exact invalidIndentFound_fal heq
    · simp only [Except.ok.injEq, Prod.mk.injEq] at h
      rw [← h.1]

theorem checkReturnInfo_fal {m : List Char × List Char × Bool × List Char}
    {ctx : DocContext} {probs : List Problem} {node : FunctionDef}
    {ctx2 : DocContext} {probs2 : List Problem}
    (h : checkReturnInfo m ctx probs node = .ok (ctx2, probs2)) :
    ctx2.found_arg_list = ctx.found_arg_list := by
  unfold checkReturnInfo at h
  rcases hret : node.returns with _ | ra
  · simp only [hret] at h
    split at h
    case h_1 => simp at h
    case h_2 c heq =>
      simp only [Except.ok.injEq, Prod.mk.injEq] at h
      rw [← h.1]
      split at heq
      · exact invalidIndentFound_fal heq
      · simp only [Except.ok.injEq] at heq
        subst heq
        rfl
  · simp only [hret] at h
    split at h
    case h_1 => simp at h
    case h_2 c heq =>
      have hc : c.found_arg_list = ctx.found_arg_list := by
        split at heq
        · exact invalidIndentFound_fal heq
        · simp only [Except.ok.injEq] at heq
          subst heq
          rfl
      rw [← hc]
      repeat' split at h
      all_goals simp only [Except.ok.injEq, Prod.mk.injEq] at h
      all_goals rw [← h.1]

theorem checkArgumentDocsTail_fal {argName : List Char} {argType : Option (List Char)}
    {argDesc : List Char} {argIndex : Nat} {ctx : DocContext} {probs : List Problem}
    {node : FunctionDef} {ctx2 : DocContext} {probs2 : List Problem}
    (h : checkArgumentDocsTail argName argType argDesc argIndex ctx probs node =
          .ok (ctx2, probs2)) :
    ctx2 = ctx := by
  unfold checkArgumentDocsTail at h
  repeat' split at h
  all_goals try dsimp only at h
  repeat' split at h
  all_goals first
    | exact Except.noConfusion h
    | (simp only [Except.ok.injEq, Prod.mk.injEq] at h
       exact h.1.symm)

theorem checkArgumentDocsRest_fal {argName : List Char} {argType : Option (List Char)}
    {argDesc : List Char} {argIndex : Nat} {ctx : DocContext} {probs : List Problem}
    {node : FunctionDef} {ctx2 : DocContext} {probs2 : List Problem}
    (h : checkArgumentDocsRest argName argType argDesc argIndex ctx probs node =
          .ok (ctx2, probs2)) :
    ctx2.found_arg_list = ctx.found_arg_list := by
  unfold checkArgumentDocsRest at h
  split at h
  case isTrue hcond =>
    rcases hargs : node.args.args with _ | ⟨a, rest⟩
    · simp only [hargs] at h
      exact Except.noConfusion h
    · simp only [hargs] at h
      rw [checkArgumentDocsTail_fal h]
      split <;> rfl
  case isFalse =>
    dsimp only at h
    rw [checkArgumentDocsTail_fal h]

theorem checkArgumentDocs_nodup {argName : List Char} {argType : Option (List Char)}
    {argDesc : List Char} {argIndex : Nat} {ctx : DocContext} {probs : List Problem}
    {node : FunctionDef} {ctx2 : DocContext} {probs2 : List Problem}
    (h : checkArgumentDocs argName argType argDesc argIndex ctx probs node =
          .ok (ctx2, probs2))
    (hn : foundArgListNodup ctx) : foundArgListNodup ctx2 := by
  unfold checkArgumentDocs at h
  split at h
  case h_1 hfal =>
    have := checkArgumentDocsRest_fal h
    unfold foundArgListNodup
    rw [this]
    simp
  case h_2 l hfal =>
    split at h
    · simp only [Except.ok.injEq, Prod.mk.injEq] at h
      rw [← h.1]
      exact hn
    case isFalse hmem =>
      have := checkArgumentDocsRest_fal h
      unfold foundArgListNodup
      rw [this]
      simp only
      have hln : l.Nodup := by
        unfold foundArgListNodup at hn
        rw [hfal] at hn
        exact hn
      simp [List.nodup_append, hln, hmem]

theorem checkArgumentInfo_nodup {m : List Char × List Char × Option (List Char) × List Char}
    {ctx : DocContext} {probs : List Problem} {node : FunctionDef}
    {ctx2 : DocContext} {probs2 : List Problem}
    (h : checkArgumentInfo m ctx probs node = .ok (ctx2, probs2))
    (hn : foundArgListNodup ctx) : foundArgListNodup ctx2 := by
  unfold checkArgumentInfo at h
  simp only [] at h
  split at h
  case h_1 => simp at h
  case h_2 c ps heq =>
    have hc : foundArgListNodup c :=
      foundArgListNodup_of_eq (checkArgumentIndent_fal heq) hn
    split at h
    · simp only [Except.ok.injEq, Prod.mk.injEq] at h
      rw [← h.1]
      exact hc
    · split at h
      case h_1 => simp at h
      case h_2 c3 ps3 heq3 =>
        simp only [Except.ok.injEq, Prod.mk.injEq] at h
        rw [← h.1]
        have hnd3 := checkArgumentDocs_nodup heq3 hc
        exact foundArgListNodup_of_eq rfl hnd3

theorem checkDocSection_nodup {line : List Char} {ctx : DocContext}
    {probs : List Problem} {node : FunctionDef}
    {ctx2 : DocContext} {probs2 : List Problem}
    (h : checkDocSection line ctx probs node = .ok (ctx2, probs2))
    (hn : foundArgListNodup ctx) : foundArgListNodup ctx2 := by
  unfold checkDocSection at h
  split at h
  · simp only [Except.ok.injEq, Prod.mk.injEq] at h
    rw [← h.1]
    split <;> exact foundArgListNodup_of_eq rfl hn
  · split at h
    · exact checkArgumentInfo_nodup h hn
    · split at h
      case h_1 => simp at h
      case h_2 c heq =>
        simp only [Except.ok.injEq, Prod.mk.injEq] at h
        rw [← h.1]
        exact foundArgListNodup_of_eq (checkIndent_fal heq) hn
  · split at h
    case h_1 => simp at h
    case h_2 c ps heq =>
      simp only [Except.ok.injEq, Prod.mk.injEq] at h
      rw [← h.1]
      have hfal := checkReturnInfo_fal heq
      exact foundArgListNodup_of_eq hfal hn
  · split at h
    case h_1 => simp at h
    case h_2 c heq =>
      simp only [Except.ok.injEq, Prod.mk.injEq] at h
      rw [← h.1]
      have hfal := checkIndent_fal heq
      exact foundArgListNodup_of_eq hfal hn
  · simp only [Except.ok.injEq, Prod.mk.injEq] at h
    rw [← h.1]
    exact hn

theorem checkDocArgs_fal (line : List Char) (ctx : DocContext) (probs : List Problem)
    (node : FunctionDef) :
    (checkDocArgs line ctx probs node).2.1.found_arg_list = ctx.found_arg_list := by
  unfold checkDocArgs
  split <;> try rfl
  split <;> rfl

theorem checkDocReturn_fal (line : List Char) (ctx : DocContext) (probs : List Problem)
    (node : FunctionDef) :
    (checkDocReturn line ctx probs node).2.1.found_arg_list = ctx.found_arg_list := by
  unfold checkDocReturn
  split <;> try rfl
  split <;> rfl

theorem checkDocMisc_fal (line : List Char) (ctx : DocContext) :
    (checkDocMisc line ctx).2.found_arg_list = ctx.found_arg_list := by
  unfold checkDocMisc
  split <;> rfl

theorem checkDocLine_nodup {line : List Char} {ctx : DocContext}
    {probs : List Problem} {node : FunctionDef}
    {ctx2 : DocContext} {probs2 : List Problem}
    (h : checkDocLine line ctx probs node = .ok (ctx2, probs2))
    (hn : foundArgListNodup ctx) : foundArgListNodup ctx2 := by
  unfold checkDocLine at h
  rcases hA : checkDocArgs line ctx probs node with ⟨bA, cA, pA⟩
  have hcA : foundArgListNodup cA := by
    have := checkDocArgs_fal line ctx probs node
    rw [hA] at this
    exact foundArgListNodup_of_eq this hn
  rw [hA] at h
  by_cases hbA : bA
  · subst hbA
    simp only [if_true] at h
    simp only [Except.ok.injEq, Prod.mk.injEq] at h
    rw [← h.1]
    exact hcA
  · simp only [Bool.not_eq_true] at hbA
    subst hbA
    simp only [Bool.false_eq_true, if_false] at h
    rcases hR : checkDocReturn line cA pA node with ⟨bR, cR, pR⟩
    have hcR : foundArgListNodup cR := by
      have := checkDocReturn_fal line cA pA node
      rw [hR] at this
      exact foundArgListNodup_of_eq this hcA
    rw [hR] at h
    by_cases hbR : bR
    · subst hbR
      simp only [if_true] at h
      simp only [Except.ok.injEq, Prod.mk.injEq] at h
      rw [← h.1]
      exact hcR
    · simp only [Bool.not_eq_true] at hbR
      subst hbR
      simp only [Bool.false_eq_true, if_false] at h
      rcases hM : checkDocMisc line cR with ⟨bM, cM⟩
      have hcM : foundArgListNodup cM := by
        have := checkDocMisc_fal line cR
        rw [hM] at this
        exact foundArgListNodup_of_eq this hcR
      rw [hM] at h
      by_cases hbM : bM
      · subst hbM
        simp only [if_true] at h
        simp only [Except.ok.injEq, Prod.mk.injEq] at h
        rw [← h.1]
        exact hcM
      · simp only [Bool.not_eq_true] at hbM
        subst hbM
        simp only [Bool.false_eq_true, if_false] at h
        exact checkDocSection_nodup h hcM

theorem scanDocLines_nodup :
    ∀ {lines : List (List Char)} {ctx : DocContext} {probs : List Problem}
      {node : FunctionDef} {ctx2 : DocContext} {probs2 : List Problem},
      scanDocLines lines ctx probs node = .ok (ctx2, probs2) →
      foundArgListNodup ctx → foundArgListNodup ctx2 := by
  intro lines
  induction lines with
  | nil =>
      intro ctx probs node ctx2 probs2 h hn
      simp only [scanDocLines, Except.ok.injEq, Prod.mk.injEq] at h
      rw [← h.1]
      exact hn
  | cons l rest ih =>
      intro ctx probs node ctx2 probs2 h hn
      simp only [scanDocLines] at h
      split at h
      case h_1 => simp at h
      case h_2 c ps heq => exact ih h (checkDocLine_nodup heq hn)

/-! ## C4 -/

/-- C4: the documented set records each parameter index at most once.
Part 1: an entry resolving to an index already in the set yields exactly
the documented-more-than-once diagnostic (`BCS009`), leaves the context —
in particular the set — unchanged, and performs no other check.
Part 2: an index present in the set is never additionally flagged as
missing (`BCS011`) by the post-scan verification.
Part 3: a whole scan preserves well-formedness of the set (`None` or a
duplicate-free index list). -/
theorem claim_C4_documented_once :
    (∀ (argName : List Char) (argType : Option (List Char)) (argDesc : List Char)
       (argIndex : Nat) (ctx : DocContext) (probs : List Problem)
       (node : FunctionDef) (l : List Nat),
       ctx.found_arg_list = some l → argIndex ∈ l →
       checkArgumentDocs argName argType argDesc argIndex ctx probs node =
         .ok (ctx, probs ++ [mkProblem node .BCS009 [.str argName]])) ∧
    (∀ (ctx : DocContext) (node : FunctionDef) (probs : List Problem)
       (l : List Nat) (i : Nat) (hi : i < node.args.args.length),
       ctx.found_arg_list = some l → i ∈ l →
       (node.args.args.map (fun b => b.arg)).Nodup →
       ((verifyArgs ctx node probs).drop probs.length).countP
           (isMissingDocFor node (node.args.args.get ⟨i, hi⟩).arg) = 0) ∧
    (∀ (lines : List (List Char)) (ctx : DocContext) (probs : List Problem)
       (node : FunctionDef) (ctx2 : DocContext) (probs2 : List Problem),
       scanDocLines lines ctx probs node = .ok (ctx2, probs2) →
       foundArgListNodup ctx → foundArgListNodup ctx2) := by
  refine ⟨?_, ?_, ?_⟩
  · intro argName argType argDesc argIndex ctx probs node l hl hmem
    unfold checkArgumentDocs
    simp only [hl]
    rw [if_pos hmem]
  · intro ctx node probs l i hi hl hmem hnd
    unfold verifyArgs
    by_cases hfa : ctx.found_args
    · simp only [hfa, Bool.not_true, Bool.false_eq_true, if_false]
      by_cases h19 : (!functionHasArgumentsToDocument node &&
          !node.args.kwarg && !node.args.vararg) = true
      · rw [if_pos h19, List.drop_left]
        simp [isMissingDocFor, mkProblem]
      · rw [if_neg h19]
        simp only [hl]
        by_cases hie : l.isEmpty
        · rw [if_pos hie, List.drop_length]
          rfl
        · rw [if_neg hie, List.drop_left]
          rw [show node.args.args.enum = node.args.args.enumFrom 0 from rfl]
          rw [countP_missing_docs]
          rw [countP_enumFrom_name node.args.args 0 i hi hnd l]
          simp [hmem]
    · simp only [hfa]
      simp only [Bool.not_false, if_true]
      by_cases h18 : (functionHasArgumentsToDocument node &&
          functionRequiresDocumentation node) = true
      · rw [if_pos h18, List.drop_left]
        simp [isMissingDocFor, mkProblem]
      · rw [if_neg h18, List.drop_length]
        rfl
  · intro lines ctx probs node ctx2 probs2 h hn
    exact scanDocLines_nodup h hn

/-- C4 witness: a duplicate entry for index 0, a set containing index 0 not
re-flagged as missing, and preservation of a duplicate-free set across a
one-line scan. -/
theorem claim_C4_documented_once_witness :
    checkArgumentDocs "a".data none [] 0
        { found_arg_list := some [0] } [] scenarioNode =
      .ok ({ found_arg_list := some [0] },
           [mkProblem scenarioNode .BCS009 [.str "a".data]]) ∧
    ((verifyArgs { found_args := true, found_arg_list := some [0, 1] }
        twoParamNode []).drop ([] : List Problem).length).countP
        (isMissingDocFor twoParamNode
          (twoParamNode.args.args.get ⟨0, by decide⟩).arg) = 0 ∧
    foundArgListNodup
      { found_arg_list := some [0], found_description := true } :=
  ⟨claim_C4_documented_once.1 "a".data none [] 0
      { found_arg_list := some [0] } [] scenarioNode [0] rfl (by decide),
   claim_C4_documented_once.2.1 { found_args := true, found_arg_list := some [0, 1] }
      twoParamNode [] [0, 1] 0 (by decide) rfl (by decide) (by decide),
   claim_C4_documented_once.2.2 ["Desc.".data] { found_arg_list := some [0] }
      [] scenarioNode { found_arg_list := some [0], found_description := true }
      [] rfl (by simp [foundArgListNodup])⟩

/-! ## C9 (amended) -/

theorem filter_agg_verifyDescription (ctx : DocContext) (node : FunctionDef)
    (probs : List Problem) :
    (verifyDescription ctx node probs).filter isIndentAggregate =
      probs.filter isIndentAggregate := by
  unfold verifyDescription
  split
  · rw [List.filter_append]
    simp [isIndentAggregate, mkProblem]
  · rfl

theorem filter_agg_verifyArgs (ctx : DocContext) (node : FunctionDef)
    (probs : List Problem) :
    (verifyArgs ctx node probs).filter isIndentAggregate =
      probs.filter isIndentAggregate := by
  unfold verifyArgs
  repeat' split
  all_goals try rfl
  all_goals rw [List.filter_append, List.append_right_eq_self, List.filter_eq_nil_iff]
  all_goals intro p hp
  all_goals first
    | (rcases List.mem_singleton.mp hp with rfl
       simp [isIndentAggregate, mkProblem])
    | (rcases List.mem_filterMap.mp hp with ⟨q, hq, hfq⟩
       split at hfq
       · cases hfq
         simp [isIndentAggregate, mkProblem]
       · cases hfq)

theorem filter_agg_verifyReturn (ctx : DocContext) (node : FunctionDef)
    (probs : List Problem) :
    (verifyReturn ctx node probs).filter isIndentAggregate =
      probs.filter isIndentAggregate := by
  unfold verifyReturn
  repeat' split
  all_goals try rfl
  all_goals rw [List.filter_append, List.append_right_eq_self, List.filter_eq_nil_iff]
  all_goals intro p hp
  all_goals rcases List.mem_singleton.mp hp with rfl
  all_goals simp [isIndentAggregate, mkProblem]

/-- C9 (amended): when the scan counted exactly 3 invalid indents, the
post-scan verification appends exactly one aggregate `BCS022` diagnostic,
carrying count 3 together with the recorded first-offender text; that
recorded text is the first offending string — the whole line for indent
checks, but only the parsed argument name for mis-indented argument
entries — after stripping surrounding whitespace, truncated to its first
15 characters plus `...` when the stripped length exceeds 18. -/
theorem claim_C9_amended (ctx : DocContext) (node : FunctionDef)
    (probs : List Problem) (h3 : ctx.invalid_indents = 3) :
    ((verifyContext ctx node probs).filter isIndentAggregate =
      probs.filter isIndentAggregate ++
        [mkProblem node .BCS022 [.num 3,
          match ctx.first_invalid_indent_line with
          | some l => PArg.str l
          | none => PArg.noneV]]) ∧
    (∀ (s : List Char) (c : DocContext), c.invalid_indents = 0 →
      invalidIndentFound (some s) c =
        .ok { c with
          first_invalid_indent_line :=
            some (if (pyStrip s).length > 18 then (pyStrip s).take 15 ++ "...".data
                  else pyStrip s)
          invalid_indents := 1 }) := by
  constructor
  · unfold verifyContext verifyIndents
    rw [if_pos (by rw [h3]; omega)]
    rw [List.filter_append, filter_agg_verifyReturn, filter_agg_verifyArgs,
        filter_agg_verifyDescription, h3]
    congr 1
  · intro s c h0
    unfold invalidIndentFound
    rw [if_pos h0, h0]

/-- C9 witness: a context that recorded 3 invalid indents starting at the
argument name `a`, and a concrete truncation of a 22-character line. -/
theorem claim_C9_amended_witness :
    ((verifyContext
        { invalid_indents := 3, first_invalid_indent_line := some "a".data,
          found_args := true, found_return := true, found_description := true }
        indentNode []).filter isIndentAggregate =
      ([] : List Problem).filter isIndentAggregate ++
        [mkProblem indentNode .BCS022 [.num 3, PArg.str "a".data]]) ∧
    (∀ (s : List Char) (c : DocContext), c.invalid_indents = 0 →
      invalidIndentFound (some s) c =
        .ok { c with
          first_invalid_indent_line :=
            some (if (pyStrip s).length > 18 then (pyStrip s).take 15 ++ "...".data
                  else pyStrip s)
          invalid_indents := 1 }) :=
  claim_C9_amended
    { invalid_indents := 3, first_invalid_indent_line := some "a".data,
      found_args := true, found_return := true, found_description := true }
    indentNode [] rfl

/-! ## C1: canonical well-documented functions -/

theorem dropWhile_eq_self_of_all {p : Char → Bool} {l : List Char}
    (h : ∀ c ∈ l, p c = false) : l.dropWhile p = l := by
  cases l with
  | nil => rfl
  | cons c rest => exact dropWhile_cons_neg (h c (by simp))

theorem stripBackticks_word {n : List Char} (h : ∀ c ∈ n, isWordChar c) :
    stripBackticks n = n := by
  unfold stripBackticks
  have hnb : ∀ c ∈ n, (decide (c = btick)) = false := by
    intro c hc
    simp [(wordChar_facts (h c hc)).2.2.2.2.1]
  rw [dropWhile_eq_self_of_all hnb]
  rw [dropWhile_eq_self_of_all (by
    intro c hc
    exact hnb c (List.mem_reverse.mp hc))]
  exact List.reverse_reverse n

theorem areTypeStringsSame_refl (x : List Char) : areTypeStringsSame x x = true := by
  unfold areTypeStringsSame
  rw [if_pos rfl]

theorem dropWhile_idem {p : Char → Bool} (l : List Char) :
    (l.dropWhile p).dropWhile p = l.dropWhile p := by
  apply dropWhile_eq_self_of_head
  intro c hc
  have hd := List.head?_dropWhile_not p l
  rw [hc] at hd
  exact hd

theorem pyStrip_dropWhile (l : List Char) :
    pyStrip (l.dropWhile isPySpace) = pyStrip l := by
  unfold pyStrip
  rw [dropWhile_idem]

theorem pyStrip_all_space {l : List Char} (h : ∀ c ∈ l, isPySpace c) :
    pyStrip l = [] := by
  unfold pyStrip
  rw [dropWhile_all_eq_nil h]
  rfl

theorem not_all_space_of_strip {d : List Char} (h : 2 ≤ (pyStrip d).length) :
    d.all isPySpace = false := by
  by_contra hc
  simp only [Bool.not_eq_false, List.all_eq_true] at hc
  rw [pyStrip_all_space hc] at h
  simp at h

/-- In a header-matching line, everything after the first colon is
whitespace (the keyword itself being colon-free). -/
theorem headerMatch_some_colon_tail {kw line ind : List Char}
    (hmatch : headerMatch kw line = some ind) (hkw : ':' ∉ kw) :
    ((line.dropWhile (fun c => decide (c ≠ ':'))).drop 1).all isPySpace = true := by
  obtain ⟨-, ws2, ws3, hws2, hws3, hdw⟩ := headerMatch_some_decomp hmatch
  have hline : line = line.takeWhile isPySpace ++ (kw ++ ws2 ++ ':' :: ws3) := by
    rw [← hdw, List.takeWhile_append_dropWhile]
  rw [hline]
  have hnc : ∀ c ∈ line.takeWhile isPySpace ++ kw ++ ws2,
      (decide (c ≠ ':')) = true := by
    intro c hc
    simp only [List.append_assoc, List.mem_append] at hc
    rcases hc with hc | hc | hc
    · exact decide_eq_true ((pySpace_facts (List.mem_takeWhile_imp hc)).2.2.2.1)
    · exact decide_eq_true (fun he => hkw (he ▸ hc))
    · exact decide_eq_true ((pySpace_facts (hws2 c hc)).2.2.2.1)
  rw [show line.takeWhile isPySpace ++ (kw ++ ws2 ++ ':' :: ws3) =
        (line.takeWhile isPySpace ++ kw ++ ws2) ++ ':' :: ws3 by
      simp [List.append_assoc]]
  rw [dropWhile_all_append hnc, dropWhile_cons_neg (by simp)]
  simpa [List.all_eq_true] using hws3

/-- A canonical content line `pre ++ ':' :: ' ' :: d` with a colon-free
prefix and a non-blank `d` matches no header pattern. -/
theorem headerMatch_none_of_content {kw pre d line : List Char}
    (hline : line = pre ++ ':' :: ' ' :: d)
    (hpre : ∀ c ∈ pre, c ≠ ':') (hkw : ':' ∉ kw)
    (hd : 2 ≤ (pyStrip d).length) :
    headerMatch kw line = none := by
  cases hm : headerMatch kw line with
  | none => rfl
  | some ind =>
      exfalso
      have htail := headerMatch_some_colon_tail hm hkw
      rw [hline] at htail
      rw [dropWhile_all_append (fun c hc => decide_eq_true (hpre c hc)),
          dropWhile_cons_neg (by simp)] at htail
      simp only [List.drop_one, List.tail_cons, List.all_cons,
        Bool.and_eq_true] at htail
      rw [not_all_space_of_strip hd] at htail
      exact Bool.noConfusion htail.2

/-- No header matches a whitespace-only line. -/
theorem headerMatch_none_of_all_space {k : Char} {kt line : List Char}
    (h : ∀ c ∈ line, isPySpace c) :
    headerMatch (k :: kt) line = none := by
  simp [headerMatch, dropWhile_all_eq_nil h, List.isPrefixOf]

/-- `ARG_INFO_REGEX` on a canonical entry line
`    name (type): description`. -/
theorem argInfoMatch_entry {n t : List Char} (d : List Char)
    (hn : n ≠ []) (hword : ∀ c ∈ n, isWordChar c) (ht : ':' ∉ t) :
    argInfoMatch ("    ".data ++ n ++ " (".data ++ t ++ "): ".data ++ d) =
      some ("    ".data, n, some ('(' :: (t ++ [')'])), d.dropWhile isPySpace) := by
  obtain ⟨c, wt, rfl⟩ : ∃ c wt, n = c :: wt := by
    cases n with
    | nil => exact absurd rfl hn
    | cons a b => exact ⟨a, b, rfl⟩
  have hcw : isWordChar c = true := hword c (by simp)
  have hcs : isPySpace c = false := (wordChar_facts hcw).1
  have hshape : "    ".data ++ (c :: wt) ++ " (".data ++ t ++ "): ".data ++ d =
      "    ".data ++ (c :: (wt ++ (' ' :: '(' :: (t ++ ')' :: ':' :: ' ' :: d)))) := by
    simp
  rw [hshape]
  have htw : ("    ".data ++
      (c :: (wt ++ (' ' :: '(' :: (t ++ ')' :: ':' :: ' ' :: d))))).takeWhile isPySpace =
      "    ".data := by
    rw [takeWhile_all_append (by decide), takeWhile_cons_neg hcs, List.append_nil]
  have hdw : ("    ".data ++
      (c :: (wt ++ (' ' :: '(' :: (t ++ ')' :: ':' :: ' ' :: d))))).dropWhile isPySpace =
      c :: (wt ++ (' ' :: '(' :: (t ++ ')' :: ':' :: ' ' :: d))) := by
    rw [dropWhile_all_append (by decide), dropWhile_cons_neg hcs]
  have htww : (c :: (wt ++ (' ' :: '(' :: (t ++ ')' :: ':' :: ' ' :: d)))).takeWhile
      isWordChar = c :: wt := by
    rw [← List.cons_append, takeWhile_all_append hword, List.takeWhile_cons_of_neg
      (by decide), List.append_nil]
  have hdww : (c :: (wt ++ (' ' :: '(' :: (t ++ ')' :: ':' :: ' ' :: d)))).dropWhile
      isWordChar = ' ' :: '(' :: (t ++ ')' :: ':' :: ' ' :: d) := by
    rw [← List.cons_append, dropWhile_all_append hword, List.dropWhile_cons_of_neg
      (by decide)]
  have htcolon : ∀ e ∈ t, (decide (e ≠ ':')) = true := by
    intro e he
    exact decide_eq_true (fun hee => ht (hee ▸ he))
  have hbefore : (t ++ ')' :: ':' :: ' ' :: d).takeWhile (fun e => decide (e ≠ ':')) =
      t ++ [')'] := by
    rw [takeWhile_all_append htcolon, List.takeWhile_cons_of_pos (by decide),
        List.takeWhile_cons_of_neg (by decide)]
  have hafter : (t ++ ')' :: ':' :: ' ' :: d).dropWhile (fun e => decide (e ≠ ':')) =
      ':' :: ' ' :: d := by
    rw [dropWhile_all_append htcolon, List.dropWhile_cons_of_pos (by decide),
        List.dropWhile_cons_of_neg (by decide)]
  have hcb : ¬ (c = btick) := (wordChar_facts hcw).2.2.2.2.1
  have hcstar : ¬ (c = '*') := (wordChar_facts hcw).2.2.2.2.2
  simp only [argInfoMatch, htw, hdw, if_neg hcb, takeStars, if_neg hcstar, htww, hdww]
  simp only [show ¬ (' ' = btick) from by decide, if_false, if_neg]
  simp only [List.dropWhile_cons_of_pos (show isPySpace ' ' = true from by decide),
    List.dropWhile_cons_of_neg (show ¬ isPySpace '(' = true from by decide),
    hbefore, hafter]
  rw [show ((t ++ [')']).reverse : List Char) = ')' :: t.reverse by simp]
  rw [List.dropWhile_cons_of_neg (by decide), List.takeWhile_cons_of_neg (by decide)]
  simp

/-- `RETURN_INFO_REGEX` on a canonical return line `    type: description`. -/
theorem returnInfoMatch_entry {rt : List Char} (rd : List Char)
    (hrt : ∀ c ∈ rt, isPySpace c = false ∧ c ≠ ':') :
    returnInfoMatch ("    ".data ++ rt ++ ": ".data ++ rd) =
      ("    ".data, rt, true, rd.dropWhile isPySpace) := by
  have hshape : "    ".data ++ rt ++ ": ".data ++ rd =
      "    ".data ++ (rt ++ (':' :: ' ' :: rd)) := by
    simp
  rw [hshape]
  have hhead : ∀ e, (rt ++ (':' :: ' ' :: rd)).head? = some e → isPySpace e = false := by
    intro e he
    cases rt with
    | nil =>
        simp only [List.nil_append, List.head?_cons, Option.some.injEq] at he
        subst he
        decide
    | cons a b =>
        simp only [List.cons_append, List.head?_cons, Option.some.injEq] at he
        subst he
        exact (hrt a (by simp)).1
  have htw : ("    ".data ++ (rt ++ (':' :: ' ' :: rd))).takeWhile isPySpace =
      "    ".data := by
    rw [takeWhile_all_append (by decide), takeWhile_eq_nil_of_head hhead,
        List.append_nil]
  have hdw : ("    ".data ++ (rt ++ (':' :: ' ' :: rd))).dropWhile isPySpace =
      rt ++ (':' :: ' ' :: rd) := by
    rw [dropWhile_all_append (by decide), dropWhile_eq_self_of_head hhead]
  have hrtc : ∀ e ∈ rt, (decide (e ≠ ':')) = true := by
    intro e he
    exact decide_eq_true (hrt e he).2
  simp only [returnInfoMatch, htw, hdw]
  rw [takeWhile_all_append hrtc, List.takeWhile_cons_of_neg (by decide),
      dropWhile_all_append hrtc, List.dropWhile_cons_of_neg (by decide)]
  simp [List.dropWhile_cons_of_pos (show isPySpace ' ' = true from by decide)]

theorem checkArgumentDocsTail_entry {n t d : List Char} {ann : Annot} {k : Nat}
    {node : FunctionDef} (ctx : DocContext)
    (hk : node.args.args.get? k = some { arg := n, ann := some ann })
    (ht : annotationToDocStr ann = t)
    (hd : 2 ≤ (pyStrip d).length)
    (hca : ctx.current_arg = k) :
    checkArgumentDocsTail n (some ('(' :: (t ++ [')']))) (d.dropWhile isPySpace)
        k ctx [] node = .ok (ctx, []) := by
  unfold checkArgumentDocsTail
  rw [if_neg (by rw [hca]; exact fun hc => hc rfl)]
  rw [hk]
  simp only [show (('(' :: (t ++ [')'])) : List Char).drop 1 = t ++ [')'] from rfl]
  rw [List.dropLast_concat, ht, areTypeStringsSame_refl]
  simp only [Bool.not_true, Bool.false_eq_true, if_false]
  rw [pyStrip_dropWhile, if_neg (by omega)]

theorem checkArgumentDocsRest_entry {n t d : List Char} {ann : Annot} {k : Nat}
    {node : FunctionDef} (ctx : DocContext)
    (hk : node.args.args.get? k = some { arg := n, ann := some ann })
    (ht : annotationToDocStr ann = t)
    (hd : 2 ≤ (pyStrip d).length)
    (hca : ctx.current_arg = k) :
    checkArgumentDocsRest n (some ('(' :: (t ++ [')']))) (d.dropWhile isPySpace)
        k ctx [] node = .ok (ctx, []) := by
  unfold checkArgumentDocsRest
  rw [if_neg (by rw [hca]; exact fun hc => hc.2 rfl)]
  exact checkArgumentDocsTail_entry ctx hk ht hd hca

theorem checkArgumentDocs_entry {n t d : List Char} {ann : Annot} {k : Nat}
    {node : FunctionDef}
    (hk : node.args.args.get? k = some { arg := n, ann := some ann })
    (ht : annotationToDocStr ann = t)
    (hd : 2 ≤ (pyStrip d).length) :
    checkArgumentDocs n (some ('(' :: (t ++ [')']))) (d.dropWhile isPySpace)
        k (entriesCtx k) [] node =
      .ok ({ entriesCtx k with found_arg_list := some (List.range (k + 1)) }, []) := by
  cases k with
  | zero =>
      exact checkArgumentDocsRest_entry
        { entriesCtx 0 with found_arg_list := some [0] } hk ht hd rfl
  | succ j =>
      unfold checkArgumentDocs
      simp only [entriesCtx, Nat.succ_ne_zero, if_false]
      rw [if_neg (show (j + 1) ∉ List.range (j + 1) by simp [List.mem_range])]
      rw [show (List.range (j + 1) ++ [j + 1] : List Nat) = List.range (j + 2) from
        (List.range_succ (j + 1)).symm]
      exact checkArgumentDocsRest_entry _ hk ht hd rfl

/-- One canonical entry line advances the scanner from `entriesCtx k` to
`entriesCtx (k+1)` without diagnostics. -/
theorem entry_step {n t d : List Char} {ann : Annot} {k : Nat} {node : FunctionDef}
    (hgw : getArgumentWithName n node = some k)
    (hk : node.args.args.get? k = some { arg := n, ann := some ann })
    (ht : annotationToDocStr ann = t)
    (hn : n ≠ []) (hword : ∀ c ∈ n, isWordChar c)
    (htc : ':' ∉ t)
    (hd : 2 ≤ (pyStrip d).length) :
    checkDocLine ("    ".data ++ n ++ " (".data ++ t ++ "): ".data ++ d)
        (entriesCtx k) [] node = .ok (entriesCtx (k + 1), []) := by
  have hline : "    ".data ++ n ++ " (".data ++ t ++ "): ".data ++ d =
      ("    ".data ++ n ++ " (".data ++ t ++ [')']) ++ ':' :: ' ' :: d := by
    simp
  have hpre : ∀ c ∈ ("    ".data ++ n ++ " (".data ++ t ++ [')']), c ≠ ':' := by
    intro c hc
    simp only [List.append_assoc, List.mem_append, List.mem_cons,
      List.mem_singleton, List.not_mem_nil, or_false] at hc
    rcases hc with hc | hc | hc | hc
    · rcases hc with rfl | rfl | rfl | rfl
      all_goals decide
    · exact (wordChar_facts (hword c hc)).2.1
    · rcases hc with rfl | rfl
      all_goals decide
    · rcases hc with hc | rfl
      · exact fun he => htc (he ▸ hc)
      · decide
  have hA : argsHeaderMatch ("    ".data ++ n ++ " (".data ++ t ++ "): ".data ++ d)
      = none := headerMatch_none_of_content hline hpre (by decide) hd
  have hR : returnHeaderMatch ("    ".data ++ n ++ " (".data ++ t ++ "): ".data ++ d)
      = none := by
    unfold returnHeaderMatch
    rw [show headerMatch "Returns".data
          ("    ".data ++ n ++ " (".data ++ t ++ "): ".data ++ d) = none from
        headerMatch_none_of_content hline hpre (by decide) hd]
    exact headerMatch_none_of_content hline hpre (by decide) hd
  have hM : miscHeaderMatch ("    ".data ++ n ++ " (".data ++ t ++ "): ".data ++ d)
      = false := by
    apply List.any_eq_false.mpr
    intro kw hkw
    have hkcol : ':' ∉ kw := by fin_cases hkw <;> decide
    simp only [headerMatch_none_of_content hline hpre hkcol hd, Option.isSome_none]
    decide
  have hAI := argInfoMatch_entry d hn hword htc
  have hne : n.isEmpty = false := by
    cases n with
    | nil => exact absurd rfl hn
    | cons a b => rfl
  unfold checkDocLine
  simp only [checkDocArgs, hA, checkDocReturn, hR, checkDocMisc, hM,
    Bool.false_eq_true, if_false]
  simp only [checkDocSection, show (entriesCtx k).current_section = .ARGUMENTS from rfl,
    hAI]
  simp only [checkArgumentInfo, hne, Bool.false_eq_true, if_false,
    stripBackticks_word hword, hgw, Option.getD_some]
  simp only [checkArgumentIndent,
    if_pos (show ("    ".data : List Char).length = (entriesCtx k).args_indent from rfl),
    Option.isNone_some, Bool.false_and, Bool.false_eq_true, if_false]
  rw [checkArgumentDocs_entry hk ht hd]
  simp only [Except.ok.injEq, Prod.mk.injEq]
  constructor
  · simp [entriesCtx]
  · trivial

/-- `findIdx?` finds position `k` when the element there satisfies the
predicate and no earlier element does. -/
theorem findIdx?_eq_some_at {α : Type} {p : α → Bool} :
    ∀ {l : List α} {k : Nat} {a : α}, l.get? k = some a → p a = true →
    (∀ j b, j < k → l.get? j = some b → p b = false) →
    l.findIdx? p = some k := by
  intro l
  induction l with
  | nil =>
      intro k a h _ _
      simp at h
  | cons x xs ih =>
      intro k a h hp hlt
      cases k with
      | zero =>
          have hx : x = a := by
            simpa using h
          rw [List.findIdx?_cons, if_pos (hx ▸ hp)]
      | succ k =>
          have hx : p x = false := hlt 0 x (Nat.succ_pos k) rfl
          rw [List.findIdx?_cons, if_neg (by simp [hx]), List.findIdx?_succ]
          rw [ih h hp (fun j b hj hb => hlt (j + 1) b (Nat.succ_lt_succ hj) hb)]
          rfl

/-- Against a duplicate-free canonical parameter list, the name at position
`k` resolves to index `k`. -/
theorem getArgumentWithName_at {params : List (List Char × Annot)} {node : FunctionDef}
    (hargs : node.args.args = mkParams params)
    (hnd : (params.map Prod.fst).Nodup)
    {k : Nat} {n : List Char} {ann : Annot}
    (hk : params.get? k = some (n, ann)) :
    getArgumentWithName n node = some k := by
  unfold getArgumentWithName
  rw [hargs]
  have hkm : (params.map Prod.fst).get? k = some n := by
    rw [List.get?_map, hk]
    rfl
  have hklen : k < (params.map Prod.fst).length := by
    have := List.get?_eq_some.mp hkm
    exact this.1
  apply findIdx?_eq_some_at
  · show (mkParams params).get? k = some { arg := n, ann := some ann }
    unfold mkParams
    rw [List.get?_map, hk]
    rfl
  · simp
  · intro j b hj hb
    unfold mkParams at hb
    rw [List.get?_map] at hb
    cases hpj : params.get? j with
    | none =>
        rw [hpj] at hb
        exact Option.noConfusion hb
    | some q =>
        rw [hpj] at hb
        have hbq : b = { arg := q.1, ann := some q.2 } := by
          simpa using hb.symm
        subst hbq
        simp only [decide_eq_false_iff_not]
        intro he
        have hjm : (params.map Prod.fst).get? j = some n := by
          rw [List.get?_map, hpj]
          simpa using he
        exact absurd (List.get?_inj hklen hnd (hkm.trans hjm.symm)) (Nat.ne_of_gt hj)

/-- The docstring scan processes a concatenation sequentially. -/
theorem scanDocLines_append {ys : List (List Char)} {node : FunctionDef} :
    ∀ {xs : List (List Char)} {ctx ctx1 : DocContext} {probs probs1 : List Problem},
    scanDocLines xs ctx probs node = .ok (ctx1, probs1) →
    scanDocLines (xs ++ ys) ctx probs node = scanDocLines ys ctx1 probs1 node := by
  intro xs
  induction xs with
  | nil =>
      intro ctx ctx1 probs probs1 h
      simp only [scanDocLines, Except.ok.injEq, Prod.mk.injEq] at h
      rw [List.nil_append, h.1, h.2]
  | cons l ls ih =>
      intro ctx ctx1 probs probs1 h
      rw [List.cons_append]
      simp only [scanDocLines] at h ⊢
      cases hcl : checkDocLine l ctx probs node with
      | error e =>
          rw [hcl] at h
          exact Except.noConfusion h
      | ok p =>
          obtain ⟨ctx2, probs2⟩ := p
          rw [hcl] at h
          dsimp only at h ⊢
          exact ih h

/-- Scanning the canonical entry block advances `entriesCtx k` to
`entriesCtx (k + number of entries)` with no diagnostics. -/
theorem scan_entries {node : FunctionDef} :
    ∀ (ps : List (List Char × Annot)) (ds : List (List Char)) (k : Nat),
    ps.length = ds.length →
    (∀ j q, ps.get? j = some q →
       node.args.args.get? (k + j) = some { arg := q.1, ann := some q.2 } ∧
       getArgumentWithName q.1 node = some (k + j) ∧
       q.1 ≠ [] ∧ (∀ c ∈ q.1, isWordChar c) ∧
       ':' ∉ annotationToDocStr q.2) →
    (∀ dsc ∈ ds, 2 ≤ (pyStrip dsc).length) →
    scanDocLines ((ps.zip ds).map mkArgEntry) (entriesCtx k) [] node =
      .ok (entriesCtx (k + ps.length), [])
  | [], ds, k, _, _, _ => by
      simp [scanDocLines]
  | p :: ps, ds, k, hlen, hps, hds => by
      obtain ⟨n, ann⟩ := p
      cases ds with
      | nil => exact absurd hlen (by simp)
      | cons dd ds =>
          have h0 := hps 0 (n, ann) rfl
          rw [Nat.add_zero] at h0
          have hstep := entry_step h0.2.1 h0.1 rfl h0.2.2.1 h0.2.2.2.1
            h0.2.2.2.2 (hds dd (by simp))
          have hrest := scan_entries ps ds (k + 1) (by simpa using hlen)
            (fun j q hq => by
              have := hps (j + 1) q hq
              rwa [show k + (j + 1) = k + 1 + j by omega] at this)
            (fun dsc hdsc => hds dsc (by simp [hdsc]))
          rw [List.zip_cons_cons, List.map_cons]
          show scanDocLines (mkArgEntry ((n, ann), dd) :: _) (entriesCtx k) [] node = _
          simp only [scanDocLines]
          rw [show mkArgEntry ((n, ann), dd) =
                "    ".data ++ n ++ " (".data ++ annotationToDocStr ann ++
                  "): ".data ++ dd from rfl]
          rw [hstep]
          dsimp only
          rw [hrest]
          rw [show k + 1 + ps.length = k + (ps.length + 1) by omega]
          rfl

theorem indentMatch_none_of_all_space {l : List Char} (h : ∀ c ∈ l, isPySpace c) :
    indentMatch l = none := by
  unfold indentMatch
  rw [dropWhile_all_eq_nil h]
  rfl

/-- A non-header description line with real content sets
`found_description` and nothing else. -/
theorem desc_step {d0 : List Char} {node : FunctionDef}
    (hA : argsHeaderMatch d0 = none) (hR : returnHeaderMatch d0 = none)
    (hM : miscHeaderMatch d0 = false) (hd0 : 2 ≤ (pyStrip d0).length) :
    checkDocLine d0 {} [] node = .ok ({ found_description := true }, []) := by
  unfold checkDocLine
  simp only [checkDocArgs, hA, checkDocReturn, hR, checkDocMisc, hM,
    Bool.false_eq_true, if_false]
  simp only [checkDocSection]
  rw [if_pos (by omega)]

/-- The canonical `Args:` header moves the scanner into the entry state. -/
theorem args_header_step {node : FunctionDef} :
    checkDocLine "Args:".data { found_description := true } [] node =
      .ok (entriesCtx 0, []) := rfl

/-- The canonical `Returns:` header moves the scanner into the return
state. -/
theorem returns_header_step {k : Nat} {node : FunctionDef} :
    checkDocLine "Returns:".data (entriesCtx k) [] node =
      .ok (returnCtx k, []) := rfl

/-- The canonical return body line checks out and moves the scanner to the
rest-of-return state. -/
theorem return_line_step {ra : Annot} {rd : List Char} {k : Nat} {node : FunctionDef}
    (hret : node.returns = some ra)
    (hrt : ∀ c ∈ annotationToDocStr ra, isPySpace c = false ∧ c ≠ ':')
    (hrd : 2 ≤ (pyStrip rd).length) :
    checkDocLine (mkReturnLine ra rd) (returnCtx k) [] node = .ok (finalCtx k, []) := by
  have hline : mkReturnLine ra rd =
      ("    ".data ++ annotationToDocStr ra) ++ ':' :: ' ' :: rd := by
    simp [mkReturnLine]
  have hpre : ∀ c ∈ ("    ".data ++ annotationToDocStr ra), c ≠ ':' := by
    intro c hc
    simp only [List.mem_append, List.mem_cons, List.not_mem_nil, or_false] at hc
    rcases hc with hc | hc
    · rcases hc with rfl | rfl | rfl | rfl
      all_goals decide
    · exact (hrt c hc).2
  have hA : argsHeaderMatch (mkReturnLine ra rd) = none :=
    headerMatch_none_of_content hline hpre (by decide) hrd
  have hR : returnHeaderMatch (mkReturnLine ra rd) = none := by
    unfold returnHeaderMatch
    rw [show headerMatch "Returns".data (mkReturnLine ra rd) = none from
        headerMatch_none_of_content hline hpre (by decide) hrd]
    exact headerMatch_none_of_content hline hpre (by decide) hrd
  have hM : miscHeaderMatch (mkReturnLine ra rd) = false := by
    apply List.any_eq_false.mpr
    intro kw hkw
    have hkcol : ':' ∉ kw := by fin_cases hkw <;> decide
    simp only [headerMatch_none_of_content hline hpre hkcol hrd, Option.isSome_none]
    decide
  unfold checkDocLine
  simp only [checkDocArgs, hA, checkDocReturn, hR, checkDocMisc, hM,
    Bool.false_eq_true, if_false]
  simp only [checkDocSection,
    show (returnCtx k).current_section = .RETURN_FIRST_LINE from rfl]
  rw [show mkReturnLine ra rd =
        "    ".data ++ annotationToDocStr ra ++ ": ".data ++ rd from by
      simp [mkReturnLine]]
  rw [returnInfoMatch_entry rd hrt]
  simp only [checkReturnInfo]
  rw [if_neg (show ¬(("    ".data : List Char).length ≠ (returnCtx k).return_indent)
        from by intro hc; exact hc rfl)]
  have hdoc2 : (1 : Nat) < (pyStrip rd).length := by omega
  simp [hret, pyStrip_dropWhile, areTypeStringsSame_refl, hdoc2, finalCtx,
    returnCtx, entriesCtx]

/-- Trailing whitespace-only lines leave the final scanner state unchanged. -/
theorem trailing_step {l : List Char} {k : Nat} {node : FunctionDef}
    (h : ∀ c ∈ l, isPySpace c) :
    checkDocLine l (finalCtx k) [] node = .ok (finalCtx k, []) := by
  have hA : argsHeaderMatch l = none := headerMatch_none_of_all_space h
  have hR : returnHeaderMatch l = none := by
    unfold returnHeaderMatch
    rw [show headerMatch "Returns".data l = none from headerMatch_none_of_all_space h]
    exact headerMatch_none_of_all_space h
  have hM : miscHeaderMatch l = false := by
    apply List.any_eq_false.mpr
    intro kw hkw
    fin_cases hkw
    all_goals
      simp only [headerMatch_none_of_all_space h, Option.isSome_none]
      decide
  unfold checkDocLine
  simp only [checkDocArgs, hA, checkDocReturn, hR, checkDocMisc, hM,
    Bool.false_eq_true, if_false]
  simp only [checkDocSection,
    show (finalCtx k).current_section = .RETURN_REST from rfl]
  simp only [checkIndent, indentMatch_none_of_all_space h]

/-- The whole trailing block leaves the final scanner state unchanged. -/
theorem scan_trailing {k : Nat} {node : FunctionDef} :
    ∀ {trailing : List (List Char)},
    (∀ l ∈ trailing, ∀ c ∈ l, isPySpace c) →
    scanDocLines trailing (finalCtx k) [] node = .ok (finalCtx k, [])
  | [], _ => rfl
  | l :: ls, h => by
      simp only [scanDocLines]
      rw [trailing_step (h l (by simp))]
      exact scan_trailing (fun l2 hl2 => h l2 (by simp [hl2]))

/-- A single successfully checked line advances the scan. -/
theorem scanDocLines_cons_ok {l : List Char} {rest : List (List Char)}
    {ctx ctx1 : DocContext} {probs probs1 : List Problem} {node : FunctionDef}
    (h : checkDocLine l ctx probs node = .ok (ctx1, probs1)) :
    scanDocLines (l :: rest) ctx probs node = scanDocLines rest ctx1 probs1 node := by
  simp only [scanDocLines]
  rw [h]

/-- `_check_arguments` adds nothing when every parameter is annotated. -/
theorem foldl_bcs001_nil {probs : List Problem} :
    ∀ {l : List Arg}, (∀ a ∈ l, a.ann.isNone = false) →
    List.foldl (fun probs a =>
      if a.ann.isNone ∧ a.arg ∉ RESERVED_ARGS then
        probs ++ [⟨a.lineno, a.colOffset, .BCS001, [.str a.arg]⟩]
      else probs) probs l = probs
  | [], _ => rfl
  | a :: l, h => by
      rw [List.foldl_cons]
      rw [if_neg (fun hc => by
        rw [h a (by simp)] at hc
        exact Bool.noConfusion hc.1)]
      exact foldl_bcs001_nil (fun b hb => h b (by simp [hb]))

theorem checkArguments_annotated {name : List Char} {args : Arguments}
    {probs : List Problem} (h : ∀ a ∈ args.args, a.ann.isNone = false) :
    checkArguments name args probs = probs := by
  unfold checkArguments
  split
  · rfl
  · exact foldl_bcs001_nil h

/-- `_check_return` adds nothing when a return annotation is present. -/
theorem checkReturn_skip {node : FunctionDef} {probs : List Problem}
    (h : node.returns.isNone = false) :
    checkReturn node probs = probs := by
  unfold checkReturn
  rw [if_neg (fun hc => by
    rw [h] at hc
    exact Bool.noConfusion hc.1)]

/-- After a canonical fully documented scan, the post-scan verification adds
no diagnostics. -/
theorem verify_final {params : List (List Char × Annot)} {node : FunctionDef}
    {ra : Annot}
    (hargs : node.args = { args := mkParams params })
    (hret : node.returns = some ra)
    (hne0 : params ≠ [])
    (hres : ∀ p ∈ params, p.1 ∉ RESERVED_ARGS) :
    verifyContext (finalCtx params.length) node [] = [] := by
  obtain ⟨p0, ps, rfl⟩ : ∃ p0 ps, params = p0 :: ps := by
    cases params with
    | nil => exact absurd rfl hne0
    | cons a b => exact ⟨a, b, rfl⟩
  have hhas : functionHasArgumentsToDocument node = true := by
    unfold functionHasArgumentsToDocument
    rw [hargs]
    apply List.any_eq_true.mpr
    refine ⟨{ arg := p0.1, ann := some p0.2 }, ?_, decide_eq_true (hres p0 (by simp))⟩
    exact List.mem_map_of_mem _ (by simp)
  have hlen2 : node.args.args.length = ps.length + 1 := by
    rw [hargs]
    simp [mkParams]
  unfold verifyContext
  have h1 : verifyDescription (finalCtx (p0 :: ps).length) node [] = [] := rfl
  rw [h1]
  have h2 : verifyArgs (finalCtx (p0 :: ps).length) node [] = [] := by
    unfold verifyArgs
    rw [if_neg (show ¬((!(finalCtx (p0 :: ps).length).found_args) = true) from
      fun hc => Bool.noConfusion hc)]
    rw [if_neg (show ¬((!functionHasArgumentsToDocument node &&
          !node.args.kwarg && !node.args.vararg) = true) from by
      rw [hhas]
      exact fun hc => Bool.noConfusion hc)]
    show (match (finalCtx (p0 :: ps).length).found_arg_list with
      | some l =>
          if l.isEmpty then ([] : List Problem)
          else
            [] ++ node.args.args.enum.filterMap (fun p =>
              if p.1 ∉ l ∧ p.2.arg ∉ RESERVED_ARGS then
                some (mkProblem node .BCS011 [.str p.2.arg])
              else none)
      | none => []) = []
    rw [show (finalCtx (p0 :: ps).length).found_arg_list =
          some (List.range (ps.length + 1)) from rfl]
    dsimp only
    rw [if_neg (show ¬((List.range (ps.length + 1)).isEmpty = true) from by
      simp [List.isEmpty_iff, List.range_eq_nil])]
    rw [List.nil_append]
    apply List.filterMap_eq_nil.mpr
    intro pr hpr
    obtain ⟨i, a⟩ := pr
    have hi := (List.mem_enum hpr).1
    rw [if_neg (fun hc => hc.1 (List.mem_range.mpr (by omega)))]
  rw [h2]
  have h3 : verifyReturn (finalCtx (p0 :: ps).length) node [] = [] := by
    unfold verifyReturn
    rw [hret]
    rfl
  rw [h3]
  rfl

/-- C1: for every function whose declared parameter list exactly matches, in
order, the documented arguments of the canonical `Args` section (each entry
carrying a parenthesized type rendered from the declared annotation and a
non-blank description), whose docstring opens with a real description line
and whose `Returns` section documents the rendered return annotation with a
non-blank description (plus optional whitespace-only trailing lines), the
checker emits an empty diagnostic sequence; in particular the spec scenario
`def f(a: int) -> int:` with its docstring produces no diagnostics. -/
theorem claim_C1_fully_documented_clean
    {params : List (List Char × Annot)} {descs : List (List Char)}
    {d0 rd docStr : List Char} {ra : Annot} {trailing : List (List Char)}
    {node : FunctionDef}
    (hargs : node.args = { args := mkParams params })
    (hret : node.returns = some ra)
    (hdoc : getFirstDoc node = some docStr)
    (hsplit : splitOnChar '\n' docStr = canonicalDocLines params descs d0 ra rd trailing)
    (hlen : params.length = descs.length)
    (hne0 : params ≠ [])
    (hnames : ∀ p ∈ params, p.1 ≠ [] ∧ ∀ c ∈ p.1, isWordChar c)
    (hres : ∀ p ∈ params, p.1 ∉ RESERVED_ARGS)
    (hnd : (params.map Prod.fst).Nodup)
    (htypes : ∀ p ∈ params, ':' ∉ annotationToDocStr p.2)
    (hdescs : ∀ dsc ∈ descs, 2 ≤ (pyStrip dsc).length)
    (hd0A : argsHeaderMatch d0 = none) (hd0R : returnHeaderMatch d0 = none)
    (hd0M : miscHeaderMatch d0 = false) (hd0 : 2 ≤ (pyStrip d0).length)
    (hrt : ∀ c ∈ annotationToDocStr ra, isPySpace c = false ∧ c ≠ ':')
    (hrd : 2 ≤ (pyStrip rd).length)
    (htrail : ∀ l ∈ trailing, ∀ c ∈ l, isPySpace c) :
    visitFunctionDef node = .ok [] := by
  have hargsl : node.args.args = mkParams params := by rw [hargs]
  have hgrp : ∀ j q, params.get? j = some q →
      node.args.args.get? (0 + j) = some { arg := q.1, ann := some q.2 } ∧
      getArgumentWithName q.1 node = some (0 + j) ∧
      q.1 ≠ [] ∧ (∀ c ∈ q.1, isWordChar c) ∧ ':' ∉ annotationToDocStr q.2 := by
    intro j q hq
    have hmem := List.get?_mem hq
    refine ⟨?_, ?_, (hnames q hmem).1, (hnames q hmem).2, htypes q hmem⟩
    · rw [Nat.zero_add, hargsl]
      unfold mkParams
      rw [List.get?_map, hq]
      rfl
    · rw [Nat.zero_add]
      obtain ⟨n2, ann2⟩ := q
      exact getArgumentWithName_at hargsl hnd hq
  have hse := scan_entries params descs 0 hlen hgrp hdescs
  rw [Nat.zero_add] at hse
  have hscan : scanDocLines (canonicalDocLines params descs d0 ra rd trailing)
      {} [] node = .ok (finalCtx params.length, []) := by
    unfold canonicalDocLines
    simp only [List.append_assoc, List.cons_append, List.nil_append]
    rw [scanDocLines_cons_ok (desc_step hd0A hd0R hd0M hd0)]
    rw [scanDocLines_cons_ok args_header_step]
    rw [scanDocLines_append hse]
    rw [scanDocLines_cons_ok returns_header_step]
    rw [scanDocLines_cons_ok (return_line_step hret hrt hrd)]
    exact scan_trailing htrail
  unfold visitFunctionDef
  rw [checkArguments_annotated (by
    rw [hargsl]
    intro a ha
    unfold mkParams at ha
    obtain ⟨p, hp, rfl⟩ := List.mem_map.mp ha
    rfl)]
  rw [checkReturn_skip (by rw [hret]; rfl)]
  unfold checkDocumentation
  rw [hdoc]
  dsimp only
  rw [hsplit, hscan]
  dsimp only
  rw [verify_final hargs hret hne0 hres]

/-- The concrete specification scenario for C1, discharged through the
universal theorem. -/
theorem claim_C1_fully_documented_clean_witness :
    visitFunctionDef scenarioNode = Except.ok [] :=
  @claim_C1_fully_documented_clean
    [("a".data, Annot.name "int".data)] ["about a".data]
    "Desc.".data "the result".data
    "Desc.\nArgs:\n    a (int): about a\nReturns:\n    int: the result\n".data
    (Annot.name "int".data) [[]] scenarioNode
    rfl rfl rfl rfl rfl (List.cons_ne_nil _ _)
    (by decide) (by decide) (by decide) (by decide) (by decide)
    rfl rfl rfl (by decide) (by decide) (by decide) (by decide)

end BraketCheckstyle
